import Mathlib

/-!
Shallow embedding of the `wembuzz` departure-board rendering engine
(`src/apps/departure_board/screen/`) together with proofs about it.

Python integers are modelled as `Int`, Python `range`-based loops as maps
over integer ranges, Python dictionaries as association lists with
first-match lookup (a freshly inserted key shadows an older binding, which
matches dictionary overwrite for the lookups performed here), and Python
floats (IEEE binary64) as exact dyadic values `m * 2^e` over `Int` with
every operation rounding its exact result to 53 significant bits with
round-to-nearest, ties-to-even (the `F64` namespace below) — the IEEE
semantics of the magnitudes arising here, none of which reach the overflow
or subnormal ranges.
-/

namespace Wembuzz

set_option maxRecDepth 40000

/-- Python floor division (the `//` operator). -/
def pydiv (a b : Int) : Int := Int.fdiv a b

/-- Python `range(a, b)` as a list of integers. -/
def intRange (a b : Int) : List Int :=
  (List.range (b - a).toNat).map (fun (i : Nat) => a + (i : Int))

theorem mem_intRange {a b t : Int} : t ∈ intRange a b ↔ a ≤ t ∧ t < b := by
  simp only [intRange, List.mem_map, List.mem_range]
  constructor
  · rintro ⟨i, hi, rfl⟩
    omega
  · rintro ⟨h1, h2⟩
    exact ⟨(t - a).toNat, by omega, by omega⟩

/-! ## Geometry (`screen/utils.py`) -/

/-- Model of `utils.Position`: a pixel position `(x, y)`. -/
structure Position where
  x : Int
  y : Int
deriving DecidableEq, Repr

/-- Model of `utils.Color`: an RGB color (fields as stored). -/
structure Color where
  r : Int
  g : Int
  b : Int
deriving DecidableEq, Repr

/-- Channel clamp performed by `Color.__post_init__`. -/
def clampChannel (v : Int) : Int := max 0 (min 255 v)

/-- Model of the `Color(r, g, b)` constructor, which clamps each channel
into `[0, 255]` via `__post_init__`. -/
def mkColor (r g b : Int) : Color :=
  ⟨clampChannel r, clampChannel g, clampChannel b⟩

/-- Python RGB tuple `(r, g, b)`. -/
abbrev RGB := Int × Int × Int

/-- Model of `Color.as_tuple`. -/
def Color.as_tuple (c : Color) : RGB := (c.r, c.g, c.b)

/-- Model of `utils.Region`: a rectangle `(x, y, width, height)`. -/
structure Region where
  x : Int
  y : Int
  width : Int
  height : Int
deriving DecidableEq, Repr

/-- Model of `Region.contains`: the chained comparison
`self.x <= pos.x < self.x + self.width and self.y <= pos.y < self.y + self.height`. -/
def Region.contains (r : Region) (pos : Position) : Bool :=
  (r.x ≤ pos.x && pos.x < r.x + r.width) && (r.y ≤ pos.y && pos.y < r.y + r.height)

/-- C9: for every `Region` and `Position p`, `Region.contains(p)` is true iff
`region.x ≤ p.x < region.x + width` and `region.y ≤ p.y < region.y + height`
(half-open); in particular a position with `p.x = region.x + width` is never
contained. -/
theorem C9_region_contains_halfopen :
    (∀ (r : Region) (p : Position),
      r.contains p = true ↔
        (r.x ≤ p.x ∧ p.x < r.x + r.width ∧ r.y ≤ p.y ∧ p.y < r.y + r.height)) ∧
    (∀ (r : Region) (py : Int), r.contains ⟨r.x + r.width, py⟩ = false) := by
  constructor
  · intro r p
    simp only [Region.contains, Bool.and_eq_true, decide_eq_true_eq]
    omega
  · intro r py
    simp only [Region.contains]
    simp only [Bool.and_eq_false_iff]
    left; right
    simp only [decide_eq_false_iff_not]
    omega

/-! ## Layout (`screen/layouts/layout.py`)

The Python `Layout` also carries a component registry (`_components`); only
the region registry is relevant to the claims below, so the component
dictionary is omitted. The region dictionary is an association list with
first-match lookup; prepending a binding models dictionary assignment. -/

structure Layout where
  width : Int
  height : Int
  regions : List (String × Region)

/-- Model of `Layout.get_region`. -/
def Layout.get_region (l : Layout) (name : String) : Option Region :=
  l.regions.lookup name

/-- Model of `Layout.define_region`: validates the region against the layout
bounds (raising `ValueError`, modelled as `Except.error`) and stores it. -/
def Layout.define_region (l : Layout) (name : String) (region : Region) :
    Except String Layout :=
  if region.x < 0 ∨ region.y < 0 then
    .error ("Region " ++ name ++ " has negative coordinates")
  else if region.x + region.width > l.width then
    .error ("Region " ++ name ++ " extends beyond layout width")
  else if region.y + region.height > l.height then
    .error ("Region " ++ name ++ " extends beyond layout height")
  else
    .ok { l with regions := (name, region) :: l.regions }

/-- The sub-region definition loop of `Layout.split_horizontal`. Returns the
(possibly partially updated) layout together with either the created region
names or the first error raised by `define_region`; in the error case the
sub-regions defined before the failure remain stored, matching Python's
in-place mutation. -/
def Layout.splitHGo (name : String) (y height flexSize : Int) :
    Layout → List Int → Nat → Int → Layout × Except String (List String)
  | l, [], _, _ => (l, .ok [])
  | l, size :: rest, i, xOffset =>
    let w := if size < 0 then flexSize else size
    let subName := name ++ ("_" ++ toString i)
    match l.define_region subName ⟨xOffset, y, w, height⟩ with
    | .error e => (l, .error e)
    | .ok l1 =>
      let res := Layout.splitHGo name y height flexSize l1 rest (i + 1) (xOffset + w)
      (res.1, res.2.map (fun names => subName :: names))

theorem Layout.splitHGo_cons_ok (name : String) (y height flexSize : Int)
    (l l1 : Layout) (size : Int) (rest : List Int) (i : Nat) (xOffset : Int)
    (hd : l.define_region (name ++ ("_" ++ toString i))
      ⟨xOffset, y, (if size < 0 then flexSize else size), height⟩ = .ok l1) :
    Layout.splitHGo name y height flexSize l (size :: rest) i xOffset =
      ((Layout.splitHGo name y height flexSize l1 rest (i + 1)
          (xOffset + (if size < 0 then flexSize else size))).1,
        (Layout.splitHGo name y height flexSize l1 rest (i + 1)
          (xOffset + (if size < 0 then flexSize else size))).2.map
          (fun names => (name ++ ("_" ++ toString i)) :: names)) := by
  simp only [Layout.splitHGo]
  rw [hd]

/-- Model of `Layout.split_horizontal`: fixed sizes are positive entries,
negative entries share the remaining width equally (Python floor division). -/
def Layout.split_horizontal (l : Layout) (name : String) (sizes : List Int) :
    Layout × Except String (List String) :=
  match l.get_region name with
  | none => (l, .error ("Region " ++ name ++ " not found"))
  | some region =>
    let totalFixed := (sizes.filter (fun s => decide (0 < s))).sum
    let remaining := region.width - totalFixed
    let numFlex := (sizes.filter (fun s => decide (s < 0))).length
    let flexSize := if 0 < numFlex then pydiv remaining (numFlex : Int) else 0
    Layout.splitHGo name region.y region.height flexSize l sizes 0 region.x

/-- C5: `Layout.define_region` raises exactly when the region violates the
layout-bounds invariant (`x < 0`, `y < 0`, `x + width > layout.width`, or
`y + height > layout.height`); otherwise it stores the region unchanged under
the given name. -/
theorem C5_define_region_validates :
    ∀ (l : Layout) (name : String) (r : Region),
      ((∃ e, l.define_region name r = .error e) ↔
        (r.x < 0 ∨ r.y < 0 ∨ r.x + r.width > l.width ∨ r.y + r.height > l.height)) ∧
      (¬(r.x < 0 ∨ r.y < 0 ∨ r.x + r.width > l.width ∨ r.y + r.height > l.height) →
        ∃ l1, l.define_region name r = .ok l1 ∧ l1.get_region name = some r) := by
  intro l name r
  constructor
  · constructor
    · rintro ⟨e, he⟩
      simp only [Layout.define_region] at he
      split_ifs at he with h1 h2 h3
      · tauto
      · tauto
      · tauto
    · intro h
      simp only [Layout.define_region]
      split_ifs with h1 h2 h3
      · exact ⟨_, rfl⟩
      · exact ⟨_, rfl⟩
      · exact ⟨_, rfl⟩
      · exact absurd h (by tauto)
  · intro h
    simp only [Layout.define_region]
    split_ifs with h1 h2 h3
    · exact absurd (by tauto) h
    · exact absurd (by tauto) h
    · exact absurd (by tauto) h
    · exact ⟨_, rfl, by simp [Layout.get_region, List.lookup]⟩

/-- C5 witness: a concrete in-bounds region is stored unchanged. -/
theorem C5_define_region_validates_witness :
    ¬((1 : Int) < 0 ∨ (1 : Int) < 0 ∨ (1 : Int) + 3 > 10 ∨ (1 : Int) + 3 > 10) ∧
    ∃ l1, (Layout.mk 10 10 []).define_region "a" ⟨1, 1, 3, 3⟩ = .ok l1 ∧
      l1.get_region "a" = some ⟨1, 1, 3, 3⟩ :=
  ⟨by decide,
   (C5_define_region_validates (Layout.mk 10 10 []) "a" ⟨1, 1, 3, 3⟩).2 (by decide)⟩

theorem append_zero_ne_append_one (s : String) : s ++ "_0" ≠ s ++ "_1" := by
  intro h
  have h2 : (s ++ "_0").data = (s ++ "_1").data := by rw [h]
  simp [String.data_append] at h2

/-- C6: splitting a defined region of even nonnegative width `W` with
`split_horizontal(name, -1, -1)` yields two sub-regions of width `W/2` and
the original height, adjacent, jointly covering exactly the horizontal
interval `[x, x + W)` with no gap and no overlap. -/
theorem C6_split_horizontal_even_exact :
    ∀ (l : Layout) (name : String) (r : Region),
      l.get_region name = some r →
      0 ≤ r.x → 0 ≤ r.y → r.x + r.width ≤ l.width → r.y + r.height ≤ l.height →
      0 ≤ r.width → r.width % 2 = 0 →
      ∃ (l2 : Layout) (r0 r1 : Region),
        l.split_horizontal name [-1, -1] = (l2, .ok [name ++ "_0", name ++ "_1"]) ∧
        l2.get_region (name ++ "_0") = some r0 ∧
        l2.get_region (name ++ "_1") = some r1 ∧
        r0 = ⟨r.x, r.y, pydiv r.width 2, r.height⟩ ∧
        r1 = ⟨r.x + pydiv r.width 2, r.y, pydiv r.width 2, r.height⟩ ∧
        r1.x = r0.x + r0.width ∧
        r0.height = r.height ∧ r1.height = r.height ∧
        2 * r0.width = r.width ∧ 2 * r1.width = r.width ∧
        (∀ t : Int,
          ((r0.x ≤ t ∧ t < r0.x + r0.width) ∨ (r1.x ≤ t ∧ t < r1.x + r1.width)) ↔
            (r.x ≤ t ∧ t < r.x + r.width)) ∧
        (∀ t : Int,
          ¬((r0.x ≤ t ∧ t < r0.x + r0.width) ∧ (r1.x ≤ t ∧ t < r1.x + r1.width))) := by
  intro l name r h0 hx hy hxw hyh hw0 heven
  have hfd : pydiv r.width 2 + pydiv r.width 2 = r.width := by
    unfold pydiv
    rw [Int.fdiv_eq_ediv]
    · omega
    · omega
  have hfdnn : 0 ≤ pydiv r.width 2 := by
    unfold pydiv
    rw [Int.fdiv_eq_ediv]
    · omega
    · omega
  have key : l.split_horizontal name [-1, -1] =
      Layout.splitHGo name r.y r.height (pydiv r.width 2) l [-1, -1] 0 r.x := by
    simp only [Layout.split_horizontal, h0]
    have e1 : (List.filter (fun s => decide (s < 0)) ([-1, -1] : List Int)).length = 2 := by
      decide
    have e2 : (List.filter (fun s => decide (0 < s)) ([-1, -1] : List Int)).sum = 0 := by
      decide
    rw [e1, e2, if_pos (by norm_num)]
    norm_num
  have hd0 : l.define_region (name ++ "_0")
      ⟨r.x, r.y, pydiv r.width 2, r.height⟩ =
      .ok { l with regions := (name ++ "_0", ⟨r.x, r.y, pydiv r.width 2, r.height⟩) :: l.regions } := by
    simp only [Layout.define_region]
    rw [if_neg (by omega), if_neg (by omega), if_neg (by omega)]
  have hd1 : Layout.define_region
      { l with regions := (name ++ "_0", ⟨r.x, r.y, pydiv r.width 2, r.height⟩) :: l.regions }
      (name ++ "_1") ⟨r.x + pydiv r.width 2, r.y, pydiv r.width 2, r.height⟩ =
      .ok { l with regions :=
        (name ++ "_1", ⟨r.x + pydiv r.width 2, r.y, pydiv r.width 2, r.height⟩) ::
        (name ++ "_0", ⟨r.x, r.y, pydiv r.width 2, r.height⟩) :: l.regions } := by
    simp only [Layout.define_region]
    rw [if_neg (by omega), if_neg (by omega), if_neg (by omega)]
  have hstep0 := Layout.splitHGo_cons_ok name r.y r.height (pydiv r.width 2) l
    { l with regions := (name ++ "_0", ⟨r.x, r.y, pydiv r.width 2, r.height⟩) :: l.regions }
    (-1) [-1] 0 r.x (by rw [if_pos (by omega)]; exact hd0)
  have hstep1 := Layout.splitHGo_cons_ok name r.y r.height (pydiv r.width 2)
    { l with regions := (name ++ "_0", ⟨r.x, r.y, pydiv r.width 2, r.height⟩) :: l.regions }
    { l with regions :=
        (name ++ "_1", ⟨r.x + pydiv r.width 2, r.y, pydiv r.width 2, r.height⟩) ::
        (name ++ "_0", ⟨r.x, r.y, pydiv r.width 2, r.height⟩) :: l.regions }
    (-1) [] 1 (r.x + pydiv r.width 2) (by rw [if_pos (by omega)]; exact hd1)
  have hgo : Layout.splitHGo name r.y r.height (pydiv r.width 2) l [-1, -1] 0 r.x =
      ({ l with regions :=
          (name ++ "_1", ⟨r.x + pydiv r.width 2, r.y, pydiv r.width 2, r.height⟩) ::
          (name ++ "_0", ⟨r.x, r.y, pydiv r.width 2, r.height⟩) :: l.regions },
        .ok [name ++ "_0", name ++ "_1"]) := by
    rw [hstep0]
    rw [if_pos (by omega)] at hstep1 ⊢
    rw [hstep1]
    rfl
  refine ⟨_, ⟨r.x, r.y, pydiv r.width 2, r.height⟩,
    ⟨r.x + pydiv r.width 2, r.y, pydiv r.width 2, r.height⟩,
    key.trans hgo, ?_, ?_, rfl, rfl, rfl, rfl, rfl,
    (by show 2 * pydiv r.width 2 = r.width; omega),
    (by show 2 * pydiv r.width 2 = r.width; omega), ?_, ?_⟩
  · simp only [Layout.get_region, List.lookup]
    have hne : ((name ++ "_0") == (name ++ "_1")) = false := by
      simp [append_zero_ne_append_one name]
    rw [hne]
    simp
  · simp only [Layout.get_region, List.lookup]
    simp
  · intro t
    show ((r.x ≤ t ∧ t < r.x + pydiv r.width 2) ∨
        (r.x + pydiv r.width 2 ≤ t ∧ t < r.x + pydiv r.width 2 + pydiv r.width 2)) ↔
      (r.x ≤ t ∧ t < r.x + r.width)
    omega
  · intro t
    show ¬((r.x ≤ t ∧ t < r.x + pydiv r.width 2) ∧
        (r.x + pydiv r.width 2 ≤ t ∧ t < r.x + pydiv r.width 2 + pydiv r.width 2))
    omega

/-- C6 witness: a concrete even split of a width-8 region. -/
theorem C6_split_horizontal_even_exact_witness :
    ((Layout.mk 10 6 [("main", ⟨1, 1, 8, 4⟩)]).get_region "main" = some ⟨1, 1, 8, 4⟩ ∧
      (0 : Int) ≤ 1 ∧ (0 : Int) ≤ 1 ∧ (1 : Int) + 8 ≤ 10 ∧ (1 : Int) + 4 ≤ 6 ∧
      (0 : Int) ≤ 8 ∧ (8 : Int) % 2 = 0) ∧
    ∃ (l2 : Layout) (r0 r1 : Region),
      (Layout.mk 10 6 [("main", ⟨1, 1, 8, 4⟩)]).split_horizontal "main" [-1, -1] =
        (l2, .ok ["main" ++ "_0", "main" ++ "_1"]) ∧
      l2.get_region ("main" ++ "_0") = some r0 ∧
      l2.get_region ("main" ++ "_1") = some r1 ∧
      r0 = ⟨1, 1, pydiv 8 2, 4⟩ ∧
      r1 = ⟨1 + pydiv 8 2, 1, pydiv 8 2, 4⟩ ∧
      r1.x = r0.x + r0.width ∧
      r0.height = 4 ∧ r1.height = 4 ∧
      2 * r0.width = 8 ∧ 2 * r1.width = 8 ∧
      (∀ t : Int,
        ((r0.x ≤ t ∧ t < r0.x + r0.width) ∨ (r1.x ≤ t ∧ t < r1.x + r1.width)) ↔
          ((1 : Int) ≤ t ∧ t < 1 + 8)) ∧
      (∀ t : Int,
        ¬((r0.x ≤ t ∧ t < r0.x + r0.width) ∧ (r1.x ≤ t ∧ t < r1.x + r1.width))) :=
  ⟨⟨by simp [Layout.get_region, List.lookup], by decide, by decide, by decide, by decide,
      by decide, by decide⟩,
    C6_split_horizontal_even_exact (Layout.mk 10 6 [("main", ⟨1, 1, 8, 4⟩)]) "main"
      ⟨1, 1, 8, 4⟩ (by simp [Layout.get_region, List.lookup])
      (by decide) (by decide) (by decide) (by decide) (by decide) (by decide)⟩

/-! ## Screen compositor (`screen/screen.py`) -/

/-- View of a component as consumed by `Screen.render`: the result of its
`is_dirty()` call and its `visible` flag. -/
structure RComp where
  dirty : Bool
  visible : Bool
deriving DecidableEq, Repr

/-- Model of the `Screen` rendering state: the pending `_full_redraw` flag
and the gathered `all_components` list (layout components followed by
standalone components, deduplicated by identity, as in `Screen.render`). -/
structure ScreenState where
  full_redraw : Bool
  comps : List RComp
deriving DecidableEq, Repr

/-- Result of one `Screen.render(clear)` call: whether the canvas was fully
cleared, the components selected for rendering, the component states after
the per-component `render`/`mark_clean` loop, and the `_full_redraw` flag
after the call. -/
structure RenderResult where
  cleared : Bool
  selected : List RComp
  comps_after : List RComp
  full_redraw_after : Bool
deriving DecidableEq, Repr

/-- Model of `Screen.render`. The canvas is cleared when
`clear or self._full_redraw`; the render set is `all_components` when `clear`
(the argument alone) holds and `[c for c in all_components if c.is_dirty()]`
otherwise; each selected visible component is rendered and marked clean. -/
def Screen.render (s : ScreenState) (clear : Bool) : RenderResult :=
  let cleared := clear || s.full_redraw
  let fullRedrawAfter := if clear || s.full_redraw then false else s.full_redraw
  let selected := if clear then s.comps else s.comps.filter (fun c => c.dirty)
  let compsAfter := s.comps.map
    (fun c =>
      if (if clear then true else c.dirty) && c.visible then { c with dirty := false }
      else c)
  ⟨cleared, selected, compsAfter, fullRedrawAfter⟩

/-- C3: with `_full_redraw` pending, `render(clear=False)` performs a full
canvas clear, yet selects only the dirty components for rendering — here
none, although the gathered list holds one clean visible component — because
the selection in `Screen.render` tests the `clear` argument alone. -/
theorem C3_render_full_redraw_selection :
    (Screen.render ⟨true, [⟨false, true⟩]⟩ false).cleared = true ∧
    (Screen.render ⟨true, [⟨false, true⟩]⟩ false).selected = [] := by
  constructor <;> rfl

/-! ## Component base (`screen/components/base.py`) -/

/-- The fields of the abstract `Component` base class: region, optional
background color, visibility and the sticky `_dirty` flag. -/
structure ComponentBase where
  region : Region
  background_color : Option Color
  visible : Bool
  dirty : Bool
deriving DecidableEq, Repr

/-- Model of `Component.mark_dirty`. -/
def ComponentBase.mark_dirty (b : ComponentBase) : ComponentBase :=
  { b with dirty := true }

/-- Model of `Component.mark_clean`. -/
def ComponentBase.mark_clean (b : ComponentBase) : ComponentBase :=
  { b with dirty := false }

/-- Model of `Component.is_dirty` (the default, non-overridden version). -/
def ComponentBase.is_dirty (b : ComponentBase) : Bool := b.dirty

/-- Model of `Component.set_visible`: guarded mutation. -/
def ComponentBase.set_visible (b : ComponentBase) (visible : Bool) : ComponentBase :=
  if b.visible ≠ visible then ({ b with visible := visible }).mark_dirty else b

/-- Model of `Component.set_region`: guarded mutation. -/
def ComponentBase.set_region (b : ComponentBase) (region : Region) : ComponentBase :=
  if b.region ≠ region then ({ b with region := region }).mark_dirty else b

/-- Model of `Component.set_background_color`: guarded mutation. -/
def ComponentBase.set_background_color (b : ComponentBase) (color : Option Color) :
    ComponentBase :=
  if b.background_color ≠ color then ({ b with background_color := color }).mark_dirty
  else b

/-- A pixel entry `(x, y, (r, g, b))` as produced by `get_pixels`. -/
abbrev Pixel := Int × Int × RGB

/-- The background-fill double loop of `Component.get_pixels`. -/
def backgroundPixels (region : Region) (bg : Color) : List Pixel :=
  (intRange region.y (region.y + region.height)).flatMap fun y =>
    (intRange region.x (region.x + region.width)).map fun x => (x, y, bg.as_tuple)

/-- Model of `Component.get_pixels`: empty when invisible, else the optional
background fill followed by the variant-specific pixels. -/
def getPixels (b : ComponentBase) (componentPixels : List Pixel) : List Pixel :=
  if b.visible = false then []
  else
    (match b.background_color with
      | some bg => backgroundPixels b.region bg
      | none => []) ++ componentPixels

theorem backgroundPixels_contains {region : Region} {bg : Color} {p : Pixel}
    (hp : p ∈ backgroundPixels region bg) : region.contains ⟨p.1, p.2.1⟩ = true := by
  simp only [backgroundPixels, List.mem_flatMap, List.mem_map] at hp
  obtain ⟨y, hy, x, hx, rfl⟩ := hp
  rw [mem_intRange] at hy hx
  simp only [Region.contains, Bool.and_eq_true, decide_eq_true_eq]
  omega

theorem getPixels_contains {b : ComponentBase} {cps : List Pixel} {p : Pixel}
    (hcps : ∀ q ∈ cps, b.region.contains ⟨q.1, q.2.1⟩ = true)
    (hp : p ∈ getPixels b cps) : b.region.contains ⟨p.1, p.2.1⟩ = true := by
  simp only [getPixels] at hp
  split at hp
  · simp at hp
  · rw [List.mem_append] at hp
    rcases hp with hp | hp
    · split at hp
      · exact backgroundPixels_contains hp
      · simp at hp
    · exact hcps p hp

/-! ## Shape components (`screen/components/shapes.py`) -/

/-- Model of `RectangleComponent`. -/
structure RectangleComponent where
  base : ComponentBase
  color : Color
  fill : Bool
  border_width : Int
  border_color : Color
deriving DecidableEq, Repr

/-- Model of `RectangleComponent.set_color`: guarded mutation. -/
def RectangleComponent.set_color (c : RectangleComponent) (color : Color) :
    RectangleComponent :=
  if c.color ≠ color then { c with color := color, base := c.base.mark_dirty } else c

/-- Model of `RectangleComponent.set_fill`: guarded mutation. -/
def RectangleComponent.set_fill (c : RectangleComponent) (fill : Bool) :
    RectangleComponent :=
  if c.fill ≠ fill then { c with fill := fill, base := c.base.mark_dirty } else c

/-- The fill loop of `RectangleComponent._get_component_pixels`. -/
def rectFillPixels (r : Region) (fc : RGB) : List Pixel :=
  (intRange r.y (r.y + r.height)).flatMap fun y =>
    (intRange r.x (r.x + r.width)).map fun x => (x, y, fc)

/-- The top-border loop of `RectangleComponent._get_component_pixels`. -/
def rectBorderTop (r : Region) (bw : Int) (bc : RGB) : List Pixel :=
  (intRange r.x (r.x + r.width)).flatMap fun x =>
    (List.range bw.toNat).flatMap fun w =>
      if r.y + (w : Int) < r.y + r.height then [(x, r.y + (w : Int), bc)] else []

/-- The bottom-border loop of `RectangleComponent._get_component_pixels`. -/
def rectBorderBottom (r : Region) (bw : Int) (bc : RGB) : List Pixel :=
  (intRange r.x (r.x + r.width)).flatMap fun x =>
    (List.range bw.toNat).flatMap fun w =>
      if r.y + r.height - 1 - (w : Int) ≥ r.y then
        [(x, r.y + r.height - 1 - (w : Int), bc)]
      else []

/-- The left-border loop of `RectangleComponent._get_component_pixels`. -/
def rectBorderLeft (r : Region) (bw : Int) (bc : RGB) : List Pixel :=
  (intRange r.y (r.y + r.height)).flatMap fun y =>
    (List.range bw.toNat).flatMap fun w =>
      if r.x + (w : Int) < r.x + r.width then [(r.x + (w : Int), y, bc)] else []

/-- The right-border loop of `RectangleComponent._get_component_pixels`. -/
def rectBorderRight (r : Region) (bw : Int) (bc : RGB) : List Pixel :=
  (intRange r.y (r.y + r.height)).flatMap fun y =>
    (List.range bw.toNat).flatMap fun w =>
      if r.x + r.width - 1 - (w : Int) ≥ r.x then
        [(r.x + r.width - 1 - (w : Int), y, bc)]
      else []

/-- Model of `RectangleComponent._get_component_pixels`: fill pixels, then —
when outlined or the border color differs — the four border strips. -/
def RectangleComponent.componentPixels (c : RectangleComponent) : List Pixel :=
  (if c.fill then rectFillPixels c.base.region c.color.as_tuple else []) ++
  (if c.fill = false ∨ c.border_color ≠ c.color then
    rectBorderTop c.base.region c.border_width c.border_color.as_tuple ++
    rectBorderBottom c.base.region c.border_width c.border_color.as_tuple ++
    rectBorderLeft c.base.region c.border_width c.border_color.as_tuple ++
    rectBorderRight c.base.region c.border_width c.border_color.as_tuple
  else [])

/-- Model of `RectangleComponent`'s inherited `get_pixels`. -/
def RectangleComponent.get_pixels (c : RectangleComponent) : List Pixel :=
  getPixels c.base c.componentPixels

/-- Model of `LineComponent` (`start`/`end` are named `startPos`/`endPos`
because `end` is a Lean keyword). -/
structure LineComponent where
  base : ComponentBase
  startPos : Position
  endPos : Position
  color : Color
  width : Int
deriving DecidableEq, Repr

/-- The Bresenham stepping loop shared by `LineComponent._draw_line` and
`LineComponent._get_component_pixels`. The Python `while True` loop advances
`x` and/or `y` by one towards `(x1, y1)` each iteration, so it runs at most
`dx + dy` steps before the exit test fires; `fuel` bounds the iterations and
callers pass `dx + dy + 1`, which covers every reachable state. -/
def bresenham (region : Region) (color : RGB) (width : Int) (x1 y1 dx dy sx sy : Int) :
    Nat → Int → Int → Int → List Pixel
  | 0, _, _, _ => []
  | fuel + 1, x, y, err =>
    let block := (List.range width.toNat).flatMap fun w =>
      (List.range width.toNat).flatMap fun h =>
        let px := x + (w : Int) - pydiv width 2
        let py := y + (h : Int) - pydiv width 2
        if region.contains ⟨px, py⟩ then [(px, py, color)] else []
    if x = x1 ∧ y = y1 then block
    else
      let e2 := 2 * err
      let err1 := if e2 > -dy then err - dy else err
      let x2 := if e2 > -dy then x + sx else x
      let err2 := if e2 < dx then err1 + dx else err1
      let y2 := if e2 < dx then y + sy else y
      block ++ bresenham region color width x1 y1 dx dy sx sy fuel x2 y2 err2

/-- Model of `LineComponent._get_component_pixels`. -/
def LineComponent.componentPixels (c : LineComponent) : List Pixel :=
  let x0 := c.startPos.x
  let y0 := c.startPos.y
  let x1 := c.endPos.x
  let y1 := c.endPos.y
  let dx := |x1 - x0|
  let dy := |y1 - y0|
  let sx : Int := if x0 < x1 then 1 else -1
  let sy : Int := if y0 < y1 then 1 else -1
  bresenham c.base.region c.color.as_tuple c.width x1 y1 dx dy sx sy
    (dx + dy + 1).toNat x0 y0 (dx - dy)

/-- Model of `LineComponent`'s inherited `get_pixels`. -/
def LineComponent.get_pixels (c : LineComponent) : List Pixel :=
  getPixels c.base c.componentPixels

/-- Model of `LineComponent.set_color`: guarded mutation. -/
def LineComponent.set_color (c : LineComponent) (color : Color) : LineComponent :=
  if c.color ≠ color then { c with color := color, base := c.base.mark_dirty } else c

/-- Model of `LineComponent.set_points`: guarded mutation that recomputes the
bounding region. -/
def LineComponent.set_points (c : LineComponent) (s e : Position) : LineComponent :=
  if c.startPos ≠ s ∨ c.endPos ≠ e then
    { c with
      startPos := s, endPos := e,
      base :=
        ({ c.base with region :=
            ⟨min s.x e.x, min s.y e.y,
              max s.x e.x - min s.x e.x + c.width,
              max s.y e.y - min s.y e.y + c.width⟩ }).mark_dirty }
  else c

/-- Model of `PixelComponent`. -/
structure PixelComponent where
  base : ComponentBase
  pixel_data : List (Int × Int × Color)
deriving DecidableEq, Repr

/-- Model of `PixelComponent._get_component_pixels`. -/
def PixelComponent.componentPixels (c : PixelComponent) : List Pixel :=
  c.pixel_data.flatMap fun e =>
    let abs_x := c.base.region.x + e.1
    let abs_y := c.base.region.y + e.2.1
    if c.base.region.contains ⟨abs_x, abs_y⟩ then [(abs_x, abs_y, e.2.2.as_tuple)]
    else []

/-- Model of `PixelComponent`'s inherited `get_pixels`. -/
def PixelComponent.get_pixels (c : PixelComponent) : List Pixel :=
  getPixels c.base c.componentPixels

/-- Model of `PixelComponent.set_pixel`: removes any entry at the coordinate,
appends the new entry, and marks dirty unconditionally. -/
def PixelComponent.set_pixel (c : PixelComponent) (rel_x rel_y : Int) (color : Color) :
    PixelComponent :=
  { c with
    pixel_data :=
      (c.pixel_data.filter fun e => !(e.1 = rel_x && e.2.1 = rel_y)) ++
        [(rel_x, rel_y, color)],
    base := c.base.mark_dirty }

/-- Model of `PixelComponent.clear_pixels`: unconditional `mark_dirty`. -/
def PixelComponent.clear_pixels (c : PixelComponent) : PixelComponent :=
  { c with pixel_data := [], base := c.base.mark_dirty }

/-- Model of `PixelComponent.set_pixels`: replaces the pixel list and marks
dirty unconditionally, even when the new list equals the old one. -/
def PixelComponent.set_pixels (c : PixelComponent) (data : List (Int × Int × Color)) :
    PixelComponent :=
  { c with pixel_data := data, base := c.base.mark_dirty }

/-! ## Binary64 floating point as exact integer dyadics

`F64` values represent `m * 2^e`. Each operation computes its exact result
and rounds it to at most 53 significant bits, round-to-nearest with ties to
even — exactly IEEE binary64 for the magnitudes arising in this code (no
overflow, no subnormals). The model was cross-checked against CPython's
float semantics on the operations used here. -/

/-- Number of binary digits of `n` (`0` for `0`). The first argument is
fuel; callers pass `n` itself, which always suffices since `n` is at least
its own bit count. -/
def natBits : Nat → Nat → Nat
  | 0, _ => 0
  | fuel + 1, n => if n = 0 then 0 else natBits fuel (n / 2) + 1

/-- Ceiling of the base-2 logarithm: the least `k` with `n ≤ 2^k`. The
first argument is fuel; callers pass `n` itself. -/
def natClog2 : Nat → Nat → Nat
  | 0, _ => 0
  | fuel + 1, n => if n ≤ 1 then 0 else natClog2 fuel ((n + 1) / 2) + 1

/-- Nearest integer to `a / d` for `d > 0`, ties to even. -/
def rheDiv (a d : Int) : Int :=
  let q := Int.fdiv a d
  let r := a - q * d
  if 2 * r < d then q
  else if d < 2 * r then q + 1
  else if q % 2 = 0 then q else q + 1

/-- A binary64 value, represented exactly as `m * 2^e`. Values produced by
the rounding operation are canonical (`m` odd or zero), so structural
equality of rounded values coincides with float equality. -/
structure F64 where
  m : Int
  e : Int
deriving DecidableEq, Repr

/-- Strip trailing zero bits of the mantissa (canonical representation).
The first argument is fuel; callers pass the mantissa's absolute value. -/
def stripTrailing : Nat → Int → Int → F64
  | 0, m, e => ⟨m, e⟩
  | fuel + 1, m, e => if m ≠ 0 ∧ m % 2 = 0 then stripTrailing fuel (m / 2) (e + 1) else ⟨m, e⟩

/-- Round `m * 2^e` to at most 53 significant bits (nearest, ties to even)
and canonicalize. -/
def F64.round (m : Int) (e : Int) : F64 :=
  if m = 0 then ⟨0, 0⟩
  else
    let bits := natBits m.natAbs m.natAbs
    if bits ≤ 53 then stripTrailing m.natAbs m e
    else
      let shift := bits - 53
      stripTrailing m.natAbs (rheDiv m ((2 : Int) ^ shift)) (e + (shift : Int))

/-- Binary64 addition: round the exact sum. -/
def F64.add (a b : F64) : F64 :=
  let e := min a.e b.e
  F64.round (a.m * (2 : Int) ^ (a.e - e).toNat + b.m * (2 : Int) ^ (b.e - e).toNat) e

/-- Binary64 multiplication: round the exact product. -/
def F64.mul (a b : F64) : F64 := F64.round (a.m * b.m) (a.e + b.e)

/-- Conversion of a Python `int` to float (exact for `|n| < 2^53`). -/
def F64.ofInt (n : Int) : F64 := F64.round n 0

/-- Binary64 `1.0 / D` for an integer `D ≠ 0` (exact rounding of `1/D`;
faithful to Python for `|D| < 2^53`, where `float(D)` is exact). -/
def F64.oneDiv (D : Int) : F64 :=
  if D = 0 then ⟨0, 0⟩
  else
    let k := natClog2 D.natAbs D.natAbs
    let mm := rheDiv ((2 : Int) ^ (52 + k)) (D.natAbs : Int)
    F64.round (if D < 0 then -mm else mm) (-(52 + (k : Int)))

/-- Boolean `a ≤ b` on binary64 values. -/
def F64.leB (a b : F64) : Bool :=
  let e := min a.e b.e
  a.m * (2 : Int) ^ (a.e - e).toNat ≤ b.m * (2 : Int) ^ (b.e - e).toNat

/-- Python `a % n` for a float `a` and a positive integer `n`: the exact
value `a - n * floor(a / n)`, which is always representable. -/
def F64.pymodInt (a : F64) (n : Int) : F64 :=
  if 0 ≤ a.e then ⟨Int.fmod (a.m * (2 : Int) ^ a.e.toNat) n, 0⟩
  else
    let d := n * (2 : Int) ^ (-a.e).toNat
    let q := Int.fdiv a.m d
    ⟨a.m - q * d, a.e⟩

/-- Python `int(a)` for a float `a`: truncation towards zero. -/
def F64.trunc (a : F64) : Int :=
  if 0 ≤ a.e then a.m * (2 : Int) ^ a.e.toNat
  else Int.tdiv a.m ((2 : Int) ^ (-a.e).toNat)

/-- The exact rational value of a binary64 number. -/
def F64.toRat (a : F64) : ℚ := (a.m : ℚ) * (2 : ℚ) ^ a.e

/-! ## Animated border component (`screen/components/shapes.py`)

The HSV hue arithmetic feeding the dash colors is modelled over exact
rationals rather than binary64 (the claims proved about this component
concern only pixel positions, which are independent of it). -/

/-- Python `int(q)` (truncation towards zero) on an exact rational. -/
def pyint (q : ℚ) : Int := if 0 ≤ q then ⌊q⌋ else ⌈q⌉

/-- Python `%` on integers (floor modulus, result has the divisor's sign). -/
def pymod (a b : Int) : Int := Int.fmod a b

/-- Python `%` modelled exactly on rationals: `a - n * floor(a / n)`. -/
def pymodQ (a n : ℚ) : ℚ := a - n * ⌊a / n⌋

/-- Model of `BorderComponent._hsv_to_rgb`. -/
def hsvToRgb (h s v : ℚ) : RGB :=
  let c := v * s
  let x := c * (1 - |pymodQ (h * 6) 2 - 1|)
  let m := v - c
  let rgb : ℚ × ℚ × ℚ :=
    if h < 1 / 6 then (c, x, 0)
    else if h < 2 / 6 then (x, c, 0)
    else if h < 3 / 6 then (0, c, x)
    else if h < 4 / 6 then (0, x, c)
    else if h < 5 / 6 then (x, 0, c)
    else (c, 0, x)
  (pyint ((rgb.1 + m) * 255), pyint ((rgb.2.1 + m) * 255), pyint ((rgb.2.2 + m) * 255))

/-- Model of `BorderComponent._get_rainbow_color`. -/
def getRainbowColor (position : ℚ) : Color :=
  let hue := pymodQ position 1
  let rgb := hsvToRgb hue 1 1
  mkColor rgb.1 rgb.2.1 rgb.2.2

/-- Model of `BorderComponent`; `_border_positions` is precomputed at
construction time (`__init__`) and not recomputed by `set_region`. -/
structure BorderComponent where
  base : ComponentBase
  num_dashes : Int
  dash_length : Int
  dash_gap : Int
  speed : F64
  frame : Int
  border_positions : List (Int × Int)

/-- Top edge of `_calculate_border_positions`: `range(w)`, left to right. -/
def topEdge (r : Region) : List (Int × Int) :=
  (List.range r.width.toNat).map fun (i : Nat) => (r.x + (i : Int), r.y)

/-- Right edge of `_calculate_border_positions`: `range(1, h)`, top to
bottom. -/
def rightEdge (r : Region) : List (Int × Int) :=
  (List.range (r.height - 1).toNat).map fun (i : Nat) =>
    (r.x + r.width - 1, r.y + 1 + (i : Int))

/-- Bottom edge of `_calculate_border_positions`: `range(w - 2, -1, -1)`,
right to left. -/
def bottomEdge (r : Region) : List (Int × Int) :=
  ((List.range (r.width - 1).toNat).map fun (i : Nat) =>
    (r.x + (i : Int), r.y + r.height - 1)).reverse

/-- Left edge of `_calculate_border_positions`: `range(h - 2, 0, -1)`,
bottom to top. -/
def leftEdge (r : Region) : List (Int × Int) :=
  ((List.range (r.height - 2).toNat).map fun (i : Nat) =>
    (r.x, r.y + 1 + (i : Int))).reverse

/-- Model of `BorderComponent._calculate_border_positions`: the four directed
edges in clockwise order. -/
def calculateBorderPositions (r : Region) : List (Int × Int) :=
  topEdge r ++ rightEdge r ++ bottomEdge r ++ leftEdge r

/-- Model of `BorderComponent.is_dirty`: always `True`. -/
def BorderComponent.is_dirty (_ : BorderComponent) : Bool := true

/-- Model of `BorderComponent._get_component_pixels`: the dash pixels at the
current frame (the perimeter clearing happens only in `render`). -/
def BorderComponent.componentPixels (c : BorderComponent) : List Pixel :=
  if c.border_positions = [] then []
  else
    let perimeter_length : Int := (c.border_positions.length : Int)
    let offset : F64 := ((F64.ofInt c.frame).mul c.speed).pymodInt perimeter_length
    let gradient_offset : ℚ :=
      ((F64.ofInt c.frame).mul c.speed).toRat / (perimeter_length : ℚ)
    (List.range c.num_dashes.toNat).flatMap fun (dash_idx : Nat) =>
      let dash_start :=
        pymod (offset.trunc + (dash_idx : Int) * pydiv perimeter_length c.num_dashes)
          perimeter_length
      (List.range c.dash_length.toNat).flatMap fun (i : Nat) =>
        let pos_idx := pymod (dash_start + (i : Int)) perimeter_length
        if pos_idx < perimeter_length then
          match c.border_positions[pos_idx.toNat]? with
          | some xy =>
            let base_color_pos :=
              pymodQ ((dash_idx : ℚ) / (c.num_dashes : ℚ) +
                (i : ℚ) / ((c.dash_length : ℚ) * (c.num_dashes : ℚ))) 1
            let dash_color_pos := pymodQ (base_color_pos + gradient_offset) 1
            [(xy.1, xy.2, (getRainbowColor dash_color_pos).as_tuple)]
          | none => []
        else []

/-- Model of `BorderComponent`'s inherited `get_pixels`. -/
def BorderComponent.get_pixels (c : BorderComponent) : List Pixel :=
  getPixels c.base c.componentPixels

/-- Model of `BorderComponent.set_num_dashes`: guarded mutation. -/
def BorderComponent.set_num_dashes (c : BorderComponent) (n : Int) : BorderComponent :=
  if c.num_dashes ≠ n then { c with num_dashes := n, base := c.base.mark_dirty } else c

/-- Model of `BorderComponent.set_dash_length`: guarded mutation. -/
def BorderComponent.set_dash_length (c : BorderComponent) (n : Int) : BorderComponent :=
  if c.dash_length ≠ n then { c with dash_length := n, base := c.base.mark_dirty } else c

/-- Model of `BorderComponent.set_dash_gap`: guarded mutation. -/
def BorderComponent.set_dash_gap (c : BorderComponent) (n : Int) : BorderComponent :=
  if c.dash_gap ≠ n then { c with dash_gap := n, base := c.base.mark_dirty } else c

/-- Model of `BorderComponent.set_speed`: guarded mutation. -/
def BorderComponent.set_speed (c : BorderComponent) (s : F64) : BorderComponent :=
  if c.speed ≠ s then { c with speed := s, base := c.base.mark_dirty } else c

/-- Model of `BorderComponent.reset_animation`. -/
def BorderComponent.reset_animation (c : BorderComponent) : BorderComponent :=
  { c with frame := 0, base := c.base.mark_dirty }

theorem Region.contains_eq_true {r : Region} {p : Position} :
    r.contains p = true ↔
      (r.x ≤ p.x ∧ p.x < r.x + r.width ∧ r.y ≤ p.y ∧ p.y < r.y + r.height) := by
  simp only [Region.contains, Bool.and_eq_true, decide_eq_true_eq]
  tauto

theorem mem_topEdge {r : Region} {px py : Int} :
    (px, py) ∈ topEdge r ↔ py = r.y ∧ r.x ≤ px ∧ px < r.x + r.width := by
  simp only [topEdge, List.mem_map, List.mem_range, Prod.mk.injEq]
  constructor
  · rintro ⟨i, hi, hx, hy⟩
    omega
  · rintro ⟨h1, h2, h3⟩
    exact ⟨(px - r.x).toNat, by omega, by omega, h1.symm⟩

theorem mem_rightEdge {r : Region} {px py : Int} :
    (px, py) ∈ rightEdge r ↔
      px = r.x + r.width - 1 ∧ r.y + 1 ≤ py ∧ py < r.y + r.height := by
  simp only [rightEdge, List.mem_map, List.mem_range, Prod.mk.injEq]
  constructor
  · rintro ⟨i, hi, hx, hy⟩
    omega
  · rintro ⟨h1, h2, h3⟩
    exact ⟨(py - r.y - 1).toNat, by omega, h1.symm, by omega⟩

theorem mem_bottomEdge {r : Region} {px py : Int} :
    (px, py) ∈ bottomEdge r ↔
      py = r.y + r.height - 1 ∧ r.x ≤ px ∧ px < r.x + r.width - 1 := by
  simp only [bottomEdge, List.mem_reverse, List.mem_map, List.mem_range, Prod.mk.injEq]
  constructor
  · rintro ⟨i, hi, hx, hy⟩
    omega
  · rintro ⟨h1, h2, h3⟩
    exact ⟨(px - r.x).toNat, by omega, by omega, h1.symm⟩

theorem mem_leftEdge {r : Region} {px py : Int} :
    (px, py) ∈ leftEdge r ↔
      px = r.x ∧ r.y + 1 ≤ py ∧ py < r.y + r.height - 1 := by
  simp only [leftEdge, List.mem_reverse, List.mem_map, List.mem_range, Prod.mk.injEq]
  constructor
  · rintro ⟨i, hi, hx, hy⟩
    omega
  · rintro ⟨h1, h2, h3⟩
    exact ⟨(py - r.y - 1).toNat, by omega, h1.symm, by omega⟩

theorem nodup_topEdge (r : Region) : (topEdge r).Nodup := by
  refine List.Nodup.map ?_ (List.nodup_range _)
  intro a b hab
  have h := congrArg Prod.fst hab
  simp only at h
  omega

theorem nodup_rightEdge (r : Region) : (rightEdge r).Nodup := by
  refine List.Nodup.map ?_ (List.nodup_range _)
  intro a b hab
  have h := congrArg Prod.snd hab
  simp only at h
  omega

theorem nodup_bottomEdge (r : Region) : (bottomEdge r).Nodup := by
  rw [bottomEdge, List.nodup_reverse]
  refine List.Nodup.map ?_ (List.nodup_range _)
  intro a b hab
  have h := congrArg Prod.fst hab
  simp only at h
  omega

theorem nodup_leftEdge (r : Region) : (leftEdge r).Nodup := by
  rw [leftEdge, List.nodup_reverse]
  refine List.Nodup.map ?_ (List.nodup_range _)
  intro a b hab
  have h := congrArg Prod.snd hab
  simp only at h
  omega

/-- C8 (amended): for every `BorderComponent` whose region has width and
height at least 2 (and whose position list is the one precomputed from its
region, as `__init__` does), the perimeter position list — the four clockwise
directed edges — contains a coordinate pair iff it is a border pixel of the
region, with no duplicates: every border pixel, corners included, appears
exactly once. -/
theorem C8_border_positions_exactly_once :
    ∀ (c : BorderComponent),
      c.border_positions = calculateBorderPositions c.base.region →
      2 ≤ c.base.region.width → 2 ≤ c.base.region.height →
      (∀ px py : Int,
        (px, py) ∈ c.border_positions ↔
          (c.base.region.contains ⟨px, py⟩ = true ∧
            (px = c.base.region.x ∨ px = c.base.region.x + c.base.region.width - 1 ∨
              py = c.base.region.y ∨ py = c.base.region.y + c.base.region.height - 1))) ∧
      c.border_positions.Nodup := by
  intro c hpos hw hh
  constructor
  · intro px py
    rw [hpos]
    simp only [calculateBorderPositions, List.mem_append, mem_topEdge, mem_rightEdge,
      mem_bottomEdge, mem_leftEdge, Region.contains_eq_true]
    omega
  · rw [hpos]
    simp only [calculateBorderPositions]
    rw [List.nodup_append, List.nodup_append, List.nodup_append]
    refine ⟨⟨⟨nodup_topEdge _, nodup_rightEdge _, ?_⟩, nodup_bottomEdge _, ?_⟩,
      nodup_leftEdge _, ?_⟩
    · rintro ⟨px, py⟩ h1 h2
      rw [mem_topEdge] at h1
      rw [mem_rightEdge] at h2
      omega
    · rintro ⟨px, py⟩ h1 h2
      rw [List.mem_append, mem_topEdge, mem_rightEdge] at h1
      rw [mem_bottomEdge] at h2
      omega
    · rintro ⟨px, py⟩ h1 h2
      rw [List.mem_append, List.mem_append, mem_topEdge, mem_rightEdge,
        mem_bottomEdge] at h1
      rw [mem_leftEdge] at h2
      omega

/-- C8 witness: a fresh border component on the 4×3 region at `(0, 0)`. -/
theorem C8_border_positions_exactly_once_witness :
    ((BorderComponent.mk ⟨⟨0, 0, 4, 3⟩, none, true, true⟩ 8 4 2 ⟨1, 0⟩ 0
        (calculateBorderPositions ⟨0, 0, 4, 3⟩)).border_positions =
      calculateBorderPositions ⟨0, 0, 4, 3⟩ ∧ (2 : Int) ≤ 4 ∧ (2 : Int) ≤ 3) ∧
    ((∀ px py : Int,
        (px, py) ∈ (BorderComponent.mk ⟨⟨0, 0, 4, 3⟩, none, true, true⟩ 8 4 2 ⟨1, 0⟩ 0
            (calculateBorderPositions ⟨0, 0, 4, 3⟩)).border_positions ↔
          (Region.contains ⟨0, 0, 4, 3⟩ ⟨px, py⟩ = true ∧
            (px = 0 ∨ px = 0 + 4 - 1 ∨ py = 0 ∨ py = 0 + 3 - 1))) ∧
      (BorderComponent.mk ⟨⟨0, 0, 4, 3⟩, none, true, true⟩ 8 4 2 ⟨1, 0⟩ 0
        (calculateBorderPositions ⟨0, 0, 4, 3⟩)).border_positions.Nodup) :=
  ⟨⟨rfl, by decide, by decide⟩,
    C8_border_positions_exactly_once
      (BorderComponent.mk ⟨⟨0, 0, 4, 3⟩, none, true, true⟩ 8 4 2 ⟨1, 0⟩ 0
        (calculateBorderPositions ⟨0, 0, 4, 3⟩)) rfl (by decide) (by decide)⟩

/-- C8 counterexample to the claim as stated: a freshly constructed
`BorderComponent` on a degenerate 2×1 region lists the border pixel `(0, 0)`
twice (the bottom-edge pass revisits the top row), so the precomputed list
does not contain every border pixel exactly once. -/
theorem C8_border_positions_counterexample :
    (BorderComponent.mk ⟨⟨0, 0, 2, 1⟩, none, true, true⟩ 8 4 2 ⟨1, 0⟩ 0
        (calculateBorderPositions ⟨0, 0, 2, 1⟩)).border_positions.count (0, 0) = 2 ∧
    Region.contains ⟨0, 0, 2, 1⟩ ⟨0, 0⟩ = true ∧
    ¬(BorderComponent.mk ⟨⟨0, 0, 2, 1⟩, none, true, true⟩ 8 4 2 ⟨1, 0⟩ 0
        (calculateBorderPositions ⟨0, 0, 2, 1⟩)).border_positions.Nodup := by
  refine ⟨by decide, by decide, by decide⟩

/-! ## Text component (`screen/components/text.py`) -/

/-- Model of `text.AnimationType`. -/
inductive AnimationType where
  | NONE
  | PUSH
  | FADE
  | TYPEWRITER
  | SLIDE_LEFT
  | SLIDE_RIGHT
  | SLIDE_UP
  | SLIDE_DOWN
deriving DecidableEq, Repr

/-- The font capability consumed by text and crowding components:
`CharacterWidth(codepoint)`, `height`, and `baseline` (the source probes
`baseline`/`headers`/`height` with `hasattr`; the model exposes the
resolved baseline directly). -/
structure Font where
  CharacterWidth : Nat → Int
  height : Int
  baseline : Int

/-- Model of `TextComponent`'s state: the inherited component fields plus
the configuration, animation and render-cache fields set in `__init__`.
The `threading.Timer` handle is omitted: timers only re-invoke
`update_animation`, which is modelled as an explicit transition. -/
structure TextComponent where
  base : ComponentBase
  max_text_length : Option Nat
  text : String
  font : Option Font
  color : Color
  align : String
  vertical_align : String
  animation_type : AnimationType
  animation_progress : F64
  animation_duration : Int
  old_text : String
  new_text : String
  is_animating : Bool
  last_rendered_text : String
  last_rendered_color : Option Color
  last_rendered_progress : F64
  needs_clear : Bool

/-- Model of `TextComponent._trim_text`. -/
def trimText (maxLen : Option Nat) (t : String) : String :=
  match maxLen with
  | none => t
  | some n => if t.length ≤ n then t else t.take n ++ "..."

/-- Model of `TextComponent.is_dirty`: animating components always report
dirty; static text reports `_needs_clear` (ignoring the base `_dirty`). -/
def TextComponent.is_dirty (c : TextComponent) : Bool :=
  if c.is_animating then true else c.needs_clear

/-- Model of `TextComponent.set_text`. The returned `Bool` is true when the
call raises `AttributeError`: both the static and the animated branch end by
calling `self._sync()`, and no `_sync` method is defined anywhere in the
repository, so every state-changing call raises after its mutations have
been applied (`_schedule_next_animation_frame` is never reached). -/
def TextComponent.set_text (c : TextComponent) (t : String)
    (animation : Option AnimationType) (duration : Int) : TextComponent × Bool :=
  let trimmed := if c.max_text_length.isSome then trimText c.max_text_length t else t
  if c.text = trimmed ∧ c.is_animating = false then (c, false)
  else
    match animation with
    | none =>
      ({ c with
          text := trimmed, is_animating := false, animation_type := .NONE,
          needs_clear := true, last_rendered_text := "" }, true)
    | some AnimationType.NONE =>
      ({ c with
          text := trimmed, is_animating := false, animation_type := .NONE,
          needs_clear := true, last_rendered_text := "" }, true)
    | some a =>
      ({ c with
          old_text := c.text, new_text := trimmed, animation_type := a,
          animation_progress := ⟨0, 0⟩, animation_duration := duration,
          is_animating := true, needs_clear := true,
          last_rendered_progress := ⟨-1, 0⟩ }, true)

/-- Model of `TextComponent.update_animation`: one progression tick. The
returned `Bool` is true when the call raises `AttributeError` at the final
`self._sync()` — which happens on every tick of an animating component, in
both the completion and the continuation branch, *after* the progress
increment (and, on completion, after the text has been committed). For an
idle component the method returns immediately. Python would raise
`ZeroDivisionError` for `duration = 0`; the theorems below assume a positive
duration. -/
def TextComponent.update_animation (c : TextComponent) : TextComponent × Bool :=
  if c.is_animating = false then (c, false)
  else
    let p := c.animation_progress.add (F64.oneDiv c.animation_duration)
    if F64.leB ⟨1, 0⟩ p then
      ({ c with
          animation_progress := ⟨1, 0⟩, text := c.new_text, is_animating := false,
          animation_type := .NONE, last_rendered_text := "",
          needs_clear := true }, true)
    else
      ({ c with animation_progress := p }, true)

/-- Model of `TextComponent.set_color`: guarded mutation; a changed color
ends in the raising `self._sync()` call. -/
def TextComponent.set_color (c : TextComponent) (color : Color) :
    TextComponent × Bool :=
  if c.color ≠ color then
    ({ c with color := color, last_rendered_color := none, needs_clear := true }, true)
  else (c, false)

/-- Model of `TextComponent.set_align`: guarded mutation (no `_sync` call in
this setter, hence no raise). -/
def TextComponent.set_align (c : TextComponent) (align : String) : TextComponent :=
  if c.align ≠ align then { c with align := align, needs_clear := true } else c

/-- Model of `TextComponent.set_vertical_align`: guarded mutation; a changed
value ends in the raising `self._sync()` call. -/
def TextComponent.set_vertical_align (c : TextComponent) (v : String) :
    TextComponent × Bool :=
  if c.vertical_align ≠ v then ({ c with vertical_align := v, needs_clear := true }, true)
  else (c, false)

/-- Model of `TextComponent._get_component_pixels` (the placeholder per-
character pixel enumeration). -/
def TextComponent.componentPixels (c : TextComponent) : List Pixel :=
  if c.text = "" then []
  else
    let color := c.color.as_tuple
    let char_width : Int :=
      match c.font with
      | some f => f.CharacterWidth 0 + 1
      | none => 4
    let char_height : Int :=
      match c.font with
      | some f => f.height
      | none => 6
    let text_width : Int := (c.text.length : Int) * char_width
    let text_x : Int :=
      if c.align = "center" then
        c.base.region.x + pydiv (c.base.region.width - text_width) 2
      else if c.align = "right" then
        c.base.region.x + c.base.region.width - text_width
      else c.base.region.x
    let text_y : Int :=
      if c.vertical_align = "center" then
        c.base.region.y + pydiv (c.base.region.height - char_height) 2
      else if c.vertical_align = "bottom" then
        c.base.region.y + c.base.region.height - char_height
      else c.base.region.y
    (List.range c.text.length).flatMap fun (i : Nat) =>
      let px := text_x + (i : Int) * char_width
      let py := text_y
      if c.base.region.contains ⟨px, py⟩ then [(px, py, color)] else []

/-- Model of `TextComponent`'s inherited `get_pixels`. -/
def TextComponent.get_pixels (c : TextComponent) : List Pixel :=
  getPixels c.base c.componentPixels

/-! ## Crowding component (`screen/components/crowding.py`) -/

/-- Model of `DEFAULT_LEVEL_COLORS`. -/
def DEFAULT_LEVEL_COLORS : List (Int × Color) :=
  [(1, ⟨0, 200, 0⟩), (2, ⟨150, 200, 0⟩), (3, ⟨255, 200, 0⟩),
    (4, ⟨255, 100, 0⟩), (5, ⟨255, 0, 0⟩)]

/-- Python `dict.get(key, default)` on an association-list dictionary. -/
def dictGet (m : List (Int × Color)) (k : Int) (d : Color) : Color :=
  (m.lookup k).getD d

/-- The clamp `max(0, min(5, value))` of `CrowdingComponent`. -/
def clamp05 (v : Int) : Int := max 0 (min 5 v)

/-- Model of `CrowdingComponent`: the inherited component fields plus the
crowding state (`_value` is clamped on construction and by `set_value`). -/
structure CrowdingComponent where
  base : ComponentBase
  font : Option Font
  value : Int
  level_colors : List (Int × Color)
  inactive_color : Color
  spacing : Int
  align : String
  needs_redraw : Bool

/-- Model of `CrowdingComponent.set_value`: clamps to `[0, 5]` and, when the
clamped value differs from the current one, stores it, sets `_needs_redraw`,
marks dirty, and then raises `AttributeError` at `self._sync()` (no `_sync`
method exists); the returned `Bool` records the raise. -/
def CrowdingComponent.set_value (c : CrowdingComponent) (v : Int) :
    CrowdingComponent × Bool :=
  let clamped := clamp05 v
  if c.value ≠ clamped then
    ({ c with value := clamped, needs_redraw := true, base := c.base.mark_dirty }, true)
  else (c, false)

/-- Model of `CrowdingComponent.set_level_color`: guarded only by the level
range, not by color equality; dictionary assignment is modelled by
prepending. Ends in the raising `self._sync()` call when the level is in
range. -/
def CrowdingComponent.set_level_color (c : CrowdingComponent) (level : Int)
    (color : Color) : CrowdingComponent × Bool :=
  if 1 ≤ level ∧ level ≤ 5 then
    ({ c with
        level_colors := (level, color) :: c.level_colors,
        needs_redraw := true, base := c.base.mark_dirty }, true)
  else (c, false)

/-- Model of `CrowdingComponent.set_level_colors`: unconditional mutation and
raise. -/
def CrowdingComponent.set_level_colors (c : CrowdingComponent)
    (m : List (Int × Color)) : CrowdingComponent × Bool :=
  ({ c with level_colors := m, needs_redraw := true, base := c.base.mark_dirty }, true)

/-- Model of `CrowdingComponent.set_inactive_color`: guarded mutation; a
changed color ends in the raising `self._sync()` call. -/
def CrowdingComponent.set_inactive_color (c : CrowdingComponent) (color : Color) :
    CrowdingComponent × Bool :=
  if c.inactive_color ≠ color then
    ({ c with
        inactive_color := color, needs_redraw := true,
        base := c.base.mark_dirty }, true)
  else (c, false)

/-- Model of `CrowdingComponent.set_align`: guarded mutation; a changed value
ends in the raising `self._sync()` call. -/
def CrowdingComponent.set_align (c : CrowdingComponent) (align : String) :
    CrowdingComponent × Bool :=
  if c.align ≠ align then
    ({ c with align := align, needs_redraw := true, base := c.base.mark_dirty }, true)
  else (c, false)

/-- Model of `CrowdingComponent._get_active_color`: the inactive color for
value `0`, else the level→color table looked up at the current value with
the amber fallback `Color(255, 200, 0)`. -/
def CrowdingComponent.getActiveColor (c : CrowdingComponent) : Color :=
  if c.value = 0 then c.inactive_color
  else dictGet c.level_colors c.value ⟨255, 200, 0⟩

/-- Model of `CrowdingComponent._get_icon_width` (`ICON_CHAR` is `"\u0002"`,
codepoint 2). -/
def CrowdingComponent.iconWidth (c : CrowdingComponent) : Int :=
  match c.font with
  | some f => f.CharacterWidth 2
  | none => 5

/-- Model of `CrowdingComponent._get_font_baseline`. -/
def CrowdingComponent.fontBaseline (c : CrowdingComponent) : Int :=
  match c.font with
  | some f => f.baseline
  | none => 0

/-- Model of `CrowdingComponent._calculate_start_position`. -/
def CrowdingComponent.calculateStartPosition (c : CrowdingComponent) : Int × Int :=
  let icon_width := c.iconWidth
  let total_width := icon_width * 5 + c.spacing * 4
  let x :=
    if c.align = "center" then
      c.base.region.x + pydiv (c.base.region.width - total_width) 2
    else if c.align = "right" then
      c.base.region.x + c.base.region.width - total_width
    else c.base.region.x
  let baseline := c.fontBaseline
  let font_height :=
    match c.font with
    | some f => f.height
    | none => 8
  let y := c.base.region.y + pydiv (c.base.region.height - font_height) 2 + baseline
  (x, y)

/-- The color chosen for icon number `i` (1-based) by the render loop of
`CrowdingComponent.render`: the active color when `i ≤ value`, else the
inactive color. -/
def CrowdingComponent.renderIconColor (c : CrowdingComponent) (i : Int) : Color :=
  if i ≤ c.value then c.getActiveColor else c.inactive_color

/-- Model of `CrowdingComponent._get_component_pixels`. -/
def CrowdingComponent.componentPixels (c : CrowdingComponent) : List Pixel :=
  match c.font with
  | none => []
  | some f =>
    let icon_width := c.iconWidth
    let start := c.calculateStartPosition
    let baseline := c.fontBaseline
    let font_height := f.height
    (List.range 5).flatMap fun (i : Nat) =>
      let color :=
        if (i : Int) + 1 ≤ c.value then c.getActiveColor.as_tuple
        else c.inactive_color.as_tuple
      let x_pos := start.1 + (i : Int) * (icon_width + c.spacing)
      (List.range icon_width.toNat).flatMap fun (dx : Nat) =>
        (List.range font_height.toNat).flatMap fun (dy : Nat) =>
          let px := x_pos + (dx : Int)
          let py := start.2 - baseline + (dy : Int)
          if c.base.region.contains ⟨px, py⟩ then [(px, py, color)] else []

/-- Model of `CrowdingComponent`'s inherited `get_pixels`. -/
def CrowdingComponent.get_pixels (c : CrowdingComponent) : List Pixel :=
  getPixels c.base c.componentPixels

/-- Model of `CrowdingComponent.is_dirty`. -/
def CrowdingComponent.is_dirty (c : CrowdingComponent) : Bool :=
  c.needs_redraw || c.base.dirty

/-! ## C4: idempotent setters -/

theorem trimIf_eq (m : Option Nat) (t : String) :
    (if m.isSome then trimText m t else t) = trimText m t := by
  cases m <;> rfl

/-- C4 (amended): calling a setter with a value equal to the current one is a
complete no-op (state unchanged, hence the dirty flag unchanged and no
`mark_dirty`) for every setter of the base component, the rectangle, line and
border components, and the text and crowding components — with two
exceptions: `PixelComponent.set_pixel` / `set_pixels` / `clear_pixels` and
`CrowdingComponent.set_level_color` / `set_level_colors` mark dirty
unconditionally; and `TextComponent.set_text`'s no-op guard additionally
requires that the component is not currently animating — on an animating
component, `set_text` mutates state (restarting the animation, then raising)
even when called with the committed text. -/
theorem C4_equal_value_setters_noop :
    (∀ b : ComponentBase, b.set_visible b.visible = b) ∧
    (∀ b : ComponentBase, b.set_region b.region = b) ∧
    (∀ b : ComponentBase, b.set_background_color b.background_color = b) ∧
    (∀ c : RectangleComponent, c.set_color c.color = c) ∧
    (∀ c : RectangleComponent, c.set_fill c.fill = c) ∧
    (∀ c : LineComponent, c.set_color c.color = c) ∧
    (∀ c : LineComponent, c.set_points c.startPos c.endPos = c) ∧
    (∀ c : BorderComponent, c.set_num_dashes c.num_dashes = c) ∧
    (∀ c : BorderComponent, c.set_dash_length c.dash_length = c) ∧
    (∀ c : BorderComponent, c.set_dash_gap c.dash_gap = c) ∧
    (∀ c : BorderComponent, c.set_speed c.speed = c) ∧
    (∀ (c : TextComponent) (t : String) (anim : Option AnimationType) (dur : Int),
      trimText c.max_text_length t = c.text → c.is_animating = false →
      c.set_text t anim dur = (c, false)) ∧
    (∀ (c : TextComponent) (col : Color), c.color = col → c.set_color col = (c, false)) ∧
    (∀ (c : TextComponent) (al : String), c.align = al → c.set_align al = c) ∧
    (∀ (c : TextComponent) (v : String), c.vertical_align = v →
      c.set_vertical_align v = (c, false)) ∧
    (∀ (c : CrowdingComponent) (v : Int), clamp05 v = c.value →
      c.set_value v = (c, false)) ∧
    (∀ (c : CrowdingComponent) (col : Color), c.inactive_color = col →
      c.set_inactive_color col = (c, false)) ∧
    (∀ (c : CrowdingComponent) (al : String), c.align = al →
      c.set_align al = (c, false)) := by
  refine ⟨?_, ?_, ?_, ?_, ?_, ?_, ?_, ?_, ?_, ?_, ?_, ?_, ?_, ?_, ?_, ?_, ?_, ?_⟩
  · intro b
    simp [ComponentBase.set_visible]
  · intro b
    simp [ComponentBase.set_region]
  · intro b
    simp [ComponentBase.set_background_color]
  · intro c
    simp [RectangleComponent.set_color]
  · intro c
    simp [RectangleComponent.set_fill]
  · intro c
    simp [LineComponent.set_color]
  · intro c
    simp [LineComponent.set_points]
  · intro c
    simp [BorderComponent.set_num_dashes]
  · intro c
    simp [BorderComponent.set_dash_length]
  · intro c
    simp [BorderComponent.set_dash_gap]
  · intro c
    simp [BorderComponent.set_speed]
  · intro c t anim dur h1 h2
    simp only [TextComponent.set_text]
    rw [if_pos ⟨by rw [trimIf_eq, h1], h2⟩]
  · intro c col h
    simp [TextComponent.set_color, h]
  · intro c al h
    simp [TextComponent.set_align, h]
  · intro c v h
    simp [TextComponent.set_vertical_align, h]
  · intro c v h
    simp only [CrowdingComponent.set_value]
    rw [if_neg (by rw [h]; simp)]
  · intro c col h
    simp [CrowdingComponent.set_inactive_color, h]
  · intro c al h
    simp [CrowdingComponent.set_align, h]

/-- C4 witness: concrete no-op calls discharging the hypothesis-bearing
conjuncts (equal-text `set_text` on a clean text component; `set_value` with
an equal clamped value on a crowding component). -/
theorem C4_equal_value_setters_noop_witness :
    (trimText none "hi" = "hi" ∧
      TextComponent.set_text
        ⟨⟨⟨0, 0, 10, 8⟩, none, true, true⟩, none, "hi", none, ⟨255, 255, 255⟩,
          "left", "top", .NONE, ⟨0, 0⟩, 30, "", "", false, "", none, ⟨-1, 0⟩, false⟩
        "hi" none 30 =
        (⟨⟨⟨0, 0, 10, 8⟩, none, true, true⟩, none, "hi", none, ⟨255, 255, 255⟩,
          "left", "top", .NONE, ⟨0, 0⟩, 30, "", "", false, "", none, ⟨-1, 0⟩, false⟩,
          false)) ∧
    (clamp05 2 = 2 ∧
      CrowdingComponent.set_value
        ⟨⟨⟨0, 0, 30, 8⟩, none, true, false⟩, none, 2, DEFAULT_LEVEL_COLORS,
          ⟨50, 50, 50⟩, 1, "center", false⟩ 2 =
        (⟨⟨⟨0, 0, 30, 8⟩, none, true, false⟩, none, 2, DEFAULT_LEVEL_COLORS,
          ⟨50, 50, 50⟩, 1, "center", false⟩, false)) :=
  ⟨⟨rfl, (C4_equal_value_setters_noop.2.2.2.2.2.2.2.2.2.2.2.1)
      ⟨⟨⟨0, 0, 10, 8⟩, none, true, true⟩, none, "hi", none, ⟨255, 255, 255⟩,
        "left", "top", .NONE, ⟨0, 0⟩, 30, "", "", false, "", none, ⟨-1, 0⟩, false⟩
      "hi" none 30 rfl rfl⟩,
    ⟨rfl, (C4_equal_value_setters_noop.2.2.2.2.2.2.2.2.2.2.2.2.2.2.2.1)
      ⟨⟨⟨0, 0, 30, 8⟩, none, true, false⟩, none, 2, DEFAULT_LEVEL_COLORS,
        ⟨50, 50, 50⟩, 1, "center", false⟩ 2 rfl⟩⟩

/-- C4 counterexample to the claim as stated, in two parts.
(1) `PixelComponent.set_pixels` called with a list equal to the current pixel
data still flips the dirty flag from `False` to `True` (its `mark_dirty()`
call is unconditional).
(2) On a currently-animating text component, `set_text` called with the
committed text bypasses the no-op guard (which also requires
`not self._is_animating`) and mutates state — here it restarts the animation,
overwriting `_old_text`/`_new_text`, and raises — so the equal-value no-op
does not extend to `set_text` mid-animation. -/
theorem C4_equal_value_setters_counterexample :
    ((PixelComponent.mk ⟨⟨0, 0, 4, 4⟩, none, true, false⟩
        [(1, 1, ⟨9, 9, 9⟩)]).base.dirty = false ∧
      ((PixelComponent.mk ⟨⟨0, 0, 4, 4⟩, none, true, false⟩
          [(1, 1, ⟨9, 9, 9⟩)]).set_pixels [(1, 1, ⟨9, 9, 9⟩)]).base.dirty = true ∧
      ((PixelComponent.mk ⟨⟨0, 0, 4, 4⟩, none, true, false⟩
          [(1, 1, ⟨9, 9, 9⟩)]).set_pixels [(1, 1, ⟨9, 9, 9⟩)]).pixel_data =
        (PixelComponent.mk ⟨⟨0, 0, 4, 4⟩, none, true, false⟩
          [(1, 1, ⟨9, 9, 9⟩)]).pixel_data) ∧
    ((TextComponent.mk ⟨⟨0, 0, 40, 8⟩, none, true, true⟩ none "abc" none
        ⟨255, 255, 255⟩ "left" "top" .PUSH ⟨0, 0⟩ 30 "old" "xyz" true "" none
        ⟨-1, 0⟩ true).text = "abc" ∧
      ((TextComponent.mk ⟨⟨0, 0, 40, 8⟩, none, true, true⟩ none "abc" none
          ⟨255, 255, 255⟩ "left" "top" .PUSH ⟨0, 0⟩ 30 "old" "xyz" true "" none
          ⟨-1, 0⟩ true).set_text "abc" (some .PUSH) 30).2 = true ∧
      ((TextComponent.mk ⟨⟨0, 0, 40, 8⟩, none, true, true⟩ none "abc" none
          ⟨255, 255, 255⟩ "left" "top" .PUSH ⟨0, 0⟩ 30 "old" "xyz" true "" none
          ⟨-1, 0⟩ true).set_text "abc" (some .PUSH) 30).1.new_text = "abc" ∧
      (TextComponent.mk ⟨⟨0, 0, 40, 8⟩, none, true, true⟩ none "abc" none
        ⟨255, 255, 255⟩ "left" "top" .PUSH ⟨0, 0⟩ 30 "old" "xyz" true "" none
        ⟨-1, 0⟩ true).new_text = "xyz") :=
  ⟨⟨rfl, rfl, rfl⟩, ⟨rfl, by decide, by decide, rfl⟩⟩

/-! ## C7: crowding icon colors -/

/-- C7: in the render loop of `CrowdingComponent` (with a font), icon `i` of
`1..5` is drawn in the active color — the level→color table looked up at the
current value — when `i ≤ value`, and in the configured inactive color when
`i > value`; with `value = 0` every icon is inactive; and after `set_value(3)`
on a fresh component with the default table, icons 1–3 use the level-3 color
`Color(255, 200, 0)` and icons 4–5 the inactive `Color(50, 50, 50)`. -/
theorem C7_crowding_icon_colors :
    (∀ (c : CrowdingComponent) (i : Int), c.font.isSome = true →
      1 ≤ i → i ≤ c.value →
      c.renderIconColor i = dictGet c.level_colors c.value ⟨255, 200, 0⟩) ∧
    (∀ (c : CrowdingComponent) (i : Int), c.font.isSome = true →
      c.value < i → c.renderIconColor i = c.inactive_color) ∧
    (∀ (c : CrowdingComponent) (i : Int), c.font.isSome = true →
      c.value = 0 → 1 ≤ i → c.renderIconColor i = c.inactive_color) ∧
    (∀ f : Font,
      ((CrowdingComponent.mk ⟨⟨0, 0, 30, 8⟩, none, true, true⟩ (some f) 0
          DEFAULT_LEVEL_COLORS ⟨50, 50, 50⟩ 1 "center" true).set_value 3).1.renderIconColor 1
          = ⟨255, 200, 0⟩ ∧
      ((CrowdingComponent.mk ⟨⟨0, 0, 30, 8⟩, none, true, true⟩ (some f) 0
          DEFAULT_LEVEL_COLORS ⟨50, 50, 50⟩ 1 "center" true).set_value 3).1.renderIconColor 2
          = ⟨255, 200, 0⟩ ∧
      ((CrowdingComponent.mk ⟨⟨0, 0, 30, 8⟩, none, true, true⟩ (some f) 0
          DEFAULT_LEVEL_COLORS ⟨50, 50, 50⟩ 1 "center" true).set_value 3).1.renderIconColor 3
          = ⟨255, 200, 0⟩ ∧
      ((CrowdingComponent.mk ⟨⟨0, 0, 30, 8⟩, none, true, true⟩ (some f) 0
          DEFAULT_LEVEL_COLORS ⟨50, 50, 50⟩ 1 "center" true).set_value 3).1.renderIconColor 4
          = ⟨50, 50, 50⟩ ∧
      ((CrowdingComponent.mk ⟨⟨0, 0, 30, 8⟩, none, true, true⟩ (some f) 0
          DEFAULT_LEVEL_COLORS ⟨50, 50, 50⟩ 1 "center" true).set_value 3).1.renderIconColor 5
          = ⟨50, 50, 50⟩) := by
  refine ⟨?_, ?_, ?_, ?_⟩
  · intro c i _ h1 h2
    rw [CrowdingComponent.renderIconColor, if_pos h2, CrowdingComponent.getActiveColor,
      if_neg (by omega)]
  · intro c i _ h
    rw [CrowdingComponent.renderIconColor, if_neg (by omega)]
  · intro c i _ h0 h1
    rw [CrowdingComponent.renderIconColor, if_neg (by omega)]
  · intro f
    refine ⟨rfl, rfl, rfl, rfl, rfl⟩

/-- C7 witness: the general conjuncts instantiated on a concrete component
with value 2 and a concrete font. -/
theorem C7_crowding_icon_colors_witness :
    ((CrowdingComponent.mk ⟨⟨0, 0, 30, 8⟩, none, true, true⟩
        (some ⟨fun _ => 5, 7, 6⟩) 2 DEFAULT_LEVEL_COLORS ⟨50, 50, 50⟩ 1 "center"
        true).font.isSome = true ∧ (1 : Int) ≤ 2 ∧ (2 : Int) ≤ 2) ∧
    (CrowdingComponent.renderIconColor
      (CrowdingComponent.mk ⟨⟨0, 0, 30, 8⟩, none, true, true⟩
        (some ⟨fun _ => 5, 7, 6⟩) 2 DEFAULT_LEVEL_COLORS ⟨50, 50, 50⟩ 1 "center" true) 2 =
      dictGet DEFAULT_LEVEL_COLORS 2 ⟨255, 200, 0⟩) ∧
    (CrowdingComponent.renderIconColor
      (CrowdingComponent.mk ⟨⟨0, 0, 30, 8⟩, none, true, true⟩
        (some ⟨fun _ => 5, 7, 6⟩) 2 DEFAULT_LEVEL_COLORS ⟨50, 50, 50⟩ 1 "center" true) 3 =
      ⟨50, 50, 50⟩) :=
  ⟨⟨rfl, by decide, by decide⟩,
    (C7_crowding_icon_colors.1)
      (CrowdingComponent.mk ⟨⟨0, 0, 30, 8⟩, none, true, true⟩
        (some ⟨fun _ => 5, 7, 6⟩) 2 DEFAULT_LEVEL_COLORS ⟨50, 50, 50⟩ 1 "center" true) 2
      rfl (by decide) (by decide),
    (C7_crowding_icon_colors.2.1)
      (CrowdingComponent.mk ⟨⟨0, 0, 30, 8⟩, none, true, true⟩
        (some ⟨fun _ => 5, 7, 6⟩) 2 DEFAULT_LEVEL_COLORS ⟨50, 50, 50⟩ 1 "center" true) 3
      rfl (by decide)⟩

/-! ## C10: pixel enumeration stays within the component's region -/

theorem mem_if_singleton {α : Type} {c : Prop} [Decidable c] {e p : α}
    (hp : p ∈ (if c then [e] else [])) : c ∧ p = e := by
  by_cases hc : c
  · rw [if_pos hc] at hp
    simp at hp
    exact ⟨hc, hp⟩
  · rw [if_neg hc] at hp
    simp at hp

theorem rectFillPixels_contains {r : Region} {fc : RGB} {p : Pixel}
    (hp : p ∈ rectFillPixels r fc) : r.contains ⟨p.1, p.2.1⟩ = true := by
  simp only [rectFillPixels, List.mem_flatMap, List.mem_map] at hp
  obtain ⟨y, hy, x, hx, rfl⟩ := hp
  rw [mem_intRange] at hy hx
  rw [Region.contains_eq_true]
  exact ⟨hx.1, hx.2, hy.1, hy.2⟩

theorem rectBorderTop_contains {r : Region} {bw : Int} {bc : RGB} {p : Pixel}
    (hp : p ∈ rectBorderTop r bw bc) : r.contains ⟨p.1, p.2.1⟩ = true := by
  simp only [rectBorderTop, List.mem_flatMap, List.mem_range] at hp
  obtain ⟨x, hx, w, _, hq⟩ := hp
  obtain ⟨hguard, rfl⟩ := mem_if_singleton hq
  rw [mem_intRange] at hx
  rw [Region.contains_eq_true]
  dsimp only
  omega

theorem rectBorderBottom_contains {r : Region} {bw : Int} {bc : RGB} {p : Pixel}
    (hp : p ∈ rectBorderBottom r bw bc) : r.contains ⟨p.1, p.2.1⟩ = true := by
  simp only [rectBorderBottom, List.mem_flatMap, List.mem_range] at hp
  obtain ⟨x, hx, w, _, hq⟩ := hp
  obtain ⟨hguard, rfl⟩ := mem_if_singleton hq
  rw [mem_intRange] at hx
  rw [Region.contains_eq_true]
  dsimp only
  omega

theorem rectBorderLeft_contains {r : Region} {bw : Int} {bc : RGB} {p : Pixel}
    (hp : p ∈ rectBorderLeft r bw bc) : r.contains ⟨p.1, p.2.1⟩ = true := by
  simp only [rectBorderLeft, List.mem_flatMap, List.mem_range] at hp
  obtain ⟨y, hy, w, _, hq⟩ := hp
  obtain ⟨hguard, rfl⟩ := mem_if_singleton hq
  rw [mem_intRange] at hy
  rw [Region.contains_eq_true]
  dsimp only
  omega

theorem rectBorderRight_contains {r : Region} {bw : Int} {bc : RGB} {p : Pixel}
    (hp : p ∈ rectBorderRight r bw bc) : r.contains ⟨p.1, p.2.1⟩ = true := by
  simp only [rectBorderRight, List.mem_flatMap, List.mem_range] at hp
  obtain ⟨y, hy, w, _, hq⟩ := hp
  obtain ⟨hguard, rfl⟩ := mem_if_singleton hq
  rw [mem_intRange] at hy
  rw [Region.contains_eq_true]
  dsimp only
  omega

theorem rectComponentPixels_contains {c : RectangleComponent} {p : Pixel}
    (hp : p ∈ c.componentPixels) : c.base.region.contains ⟨p.1, p.2.1⟩ = true := by
  simp only [RectangleComponent.componentPixels, List.mem_append] at hp
  rcases hp with hp | hp
  · split at hp
    · exact rectFillPixels_contains hp
    · simp at hp
  · split at hp
    · simp only [List.mem_append] at hp
      rcases hp with ((hp | hp) | hp) | hp
      · exact rectBorderTop_contains hp
      · exact rectBorderBottom_contains hp
      · exact rectBorderLeft_contains hp
      · exact rectBorderRight_contains hp
    · simp at hp

theorem bresenham_contains {region : Region} {color : RGB}
    {width x1 y1 dx dy sx sy : Int} :
    ∀ (fuel : Nat) (x y err : Int) (p : Pixel),
      p ∈ bresenham region color width x1 y1 dx dy sx sy fuel x y err →
      region.contains ⟨p.1, p.2.1⟩ = true := by
  intro fuel
  induction fuel with
  | zero =>
    intro x y err p hp
    simp [bresenham] at hp
  | succ n ih =>
    intro x y err p hp
    rw [bresenham] at hp
    have hblock : ∀ q : Pixel,
        q ∈ ((List.range width.toNat).flatMap fun (w : Nat) =>
          (List.range width.toNat).flatMap fun (h : Nat) =>
            let px := x + (w : Int) - pydiv width 2
            let py := y + (h : Int) - pydiv width 2
            if region.contains ⟨px, py⟩ then [(px, py, color)] else []) →
        region.contains ⟨q.1, q.2.1⟩ = true := by
      intro q hq
      simp only [List.mem_flatMap, List.mem_range] at hq
      obtain ⟨w, _, h, _, hq⟩ := hq
      obtain ⟨hguard, rfl⟩ := mem_if_singleton hq
      exact hguard
    split at hp
    · exact hblock p hp
    · rw [List.mem_append] at hp
      rcases hp with hp | hp
      · exact hblock p hp
      · exact ih _ _ _ p hp

theorem lineComponentPixels_contains {c : LineComponent} {p : Pixel}
    (hp : p ∈ c.componentPixels) : c.base.region.contains ⟨p.1, p.2.1⟩ = true := by
  simp only [LineComponent.componentPixels] at hp
  exact bresenham_contains _ _ _ _ p hp

theorem pixelComponentPixels_contains {c : PixelComponent} {p : Pixel}
    (hp : p ∈ c.componentPixels) : c.base.region.contains ⟨p.1, p.2.1⟩ = true := by
  simp only [PixelComponent.componentPixels, List.mem_flatMap] at hp
  obtain ⟨e, _, hq⟩ := hp
  obtain ⟨hguard, rfl⟩ := mem_if_singleton hq
  exact hguard

theorem textComponentPixels_contains {c : TextComponent} {p : Pixel}
    (hp : p ∈ c.componentPixels) : c.base.region.contains ⟨p.1, p.2.1⟩ = true := by
  simp only [TextComponent.componentPixels] at hp
  split at hp
  · simp at hp
  · simp only [List.mem_flatMap, List.mem_range] at hp
    obtain ⟨i, _, hq⟩ := hp
    obtain ⟨hguard, rfl⟩ := mem_if_singleton hq
    exact hguard

theorem crowdingComponentPixels_contains {c : CrowdingComponent} {p : Pixel}
    (hp : p ∈ c.componentPixels) : c.base.region.contains ⟨p.1, p.2.1⟩ = true := by
  simp only [CrowdingComponent.componentPixels] at hp
  split at hp
  · simp at hp
  · simp only [List.mem_flatMap, List.mem_range] at hp
    obtain ⟨i, _, dx, _, dy, _, hq⟩ := hp
    obtain ⟨hguard, rfl⟩ := mem_if_singleton hq
    exact hguard

theorem calculateBorderPositions_contains {r : Region} {px py : Int}
    (h : (px, py) ∈ calculateBorderPositions r) (hw : 1 ≤ r.width)
    (hh : 1 ≤ r.height) : r.contains ⟨px, py⟩ = true := by
  simp only [calculateBorderPositions, List.mem_append, mem_topEdge, mem_rightEdge,
    mem_bottomEdge, mem_leftEdge] at h
  rw [Region.contains_eq_true]
  dsimp only
  omega

theorem borderComponentPixels_contains {c : BorderComponent} {p : Pixel}
    (hpos : c.border_positions = calculateBorderPositions c.base.region)
    (hw : 1 ≤ c.base.region.width) (hh : 1 ≤ c.base.region.height)
    (hp : p ∈ c.componentPixels) : c.base.region.contains ⟨p.1, p.2.1⟩ = true := by
  simp only [BorderComponent.componentPixels] at hp
  split at hp
  · simp at hp
  · simp only [List.mem_flatMap, List.mem_range] at hp
    obtain ⟨di, _, i, _, hq⟩ := hp
    split at hq
    · split at hq
      next xy hget =>
        simp only [List.mem_singleton] at hq
        subst hq
        have hmem : xy ∈ c.border_positions := List.getElem?_mem hget
        rw [hpos] at hmem
        have : (xy.1, xy.2) ∈ calculateBorderPositions c.base.region := by
          simpa using hmem
        exact calculateBorderPositions_contains this hw hh
      next hget =>
        simp at hq
    · simp at hq

/-- C10 (amended): every `(x, y, color)` entry returned by `get_pixels` lies
within the component's region for the rectangle, line, pixel-set, text and
crowding variants unconditionally, and for the border variant whenever its
precomputed position list matches its region (as after construction) and the
region has positive width and height. (A border component on a region of
width or height 0 — or whose region was changed by `set_region` after
construction, which does not recompute the positions — can emit pixels
outside its region.) -/
theorem C10_get_pixels_within_region :
    (∀ (c : RectangleComponent) (p : Pixel), p ∈ c.get_pixels →
      c.base.region.contains ⟨p.1, p.2.1⟩ = true) ∧
    (∀ (c : LineComponent) (p : Pixel), p ∈ c.get_pixels →
      c.base.region.contains ⟨p.1, p.2.1⟩ = true) ∧
    (∀ (c : PixelComponent) (p : Pixel), p ∈ c.get_pixels →
      c.base.region.contains ⟨p.1, p.2.1⟩ = true) ∧
    (∀ (c : TextComponent) (p : Pixel), p ∈ c.get_pixels →
      c.base.region.contains ⟨p.1, p.2.1⟩ = true) ∧
    (∀ (c : CrowdingComponent) (p : Pixel), p ∈ c.get_pixels →
      c.base.region.contains ⟨p.1, p.2.1⟩ = true) ∧
    (∀ (c : BorderComponent) (p : Pixel),
      c.border_positions = calculateBorderPositions c.base.region →
      1 ≤ c.base.region.width → 1 ≤ c.base.region.height →
      p ∈ c.get_pixels → c.base.region.contains ⟨p.1, p.2.1⟩ = true) := by
  refine ⟨?_, ?_, ?_, ?_, ?_, ?_⟩
  · intro c p hp
    exact getPixels_contains (fun q hq => rectComponentPixels_contains hq) hp
  · intro c p hp
    exact getPixels_contains (fun q hq => lineComponentPixels_contains hq) hp
  · intro c p hp
    exact getPixels_contains (fun q hq => pixelComponentPixels_contains hq) hp
  · intro c p hp
    exact getPixels_contains (fun q hq => textComponentPixels_contains hq) hp
  · intro c p hp
    exact getPixels_contains (fun q hq => crowdingComponentPixels_contains hq) hp
  · intro c p hpos hw hh hp
    exact getPixels_contains
      (fun q hq => borderComponentPixels_contains hpos hw hh hq) hp

/-- C10 witness: the border conjunct applied to a fresh border component on a
4×3 region. -/
theorem C10_get_pixels_within_region_witness :
    ((BorderComponent.mk ⟨⟨0, 0, 4, 3⟩, none, true, true⟩ 8 4 2 ⟨1, 0⟩ 0
        (calculateBorderPositions ⟨0, 0, 4, 3⟩)).border_positions =
      calculateBorderPositions ⟨0, 0, 4, 3⟩ ∧ (1 : Int) ≤ 4 ∧ (1 : Int) ≤ 3) ∧
    (∀ p : Pixel,
      p ∈ (BorderComponent.mk ⟨⟨0, 0, 4, 3⟩, none, true, true⟩ 8 4 2 ⟨1, 0⟩ 0
        (calculateBorderPositions ⟨0, 0, 4, 3⟩)).get_pixels →
      Region.contains ⟨0, 0, 4, 3⟩ ⟨p.1, p.2.1⟩ = true) :=
  ⟨⟨rfl, by decide, by decide⟩,
    fun p hp => (C10_get_pixels_within_region.2.2.2.2.2)
      (BorderComponent.mk ⟨⟨0, 0, 4, 3⟩, none, true, true⟩ 8 4 2 ⟨1, 0⟩ 0
        (calculateBorderPositions ⟨0, 0, 4, 3⟩)) p rfl (by decide) (by decide) hp⟩

/-- C10 counterexample to the claim as stated: a freshly constructed border
component on a width-0 region emits the dash pixel `(-1, 1)`, which is not
contained in the region (a width-0 region contains no positions at all). -/
theorem C10_get_pixels_counterexample :
    ((BorderComponent.mk ⟨⟨0, 0, 0, 2⟩, none, true, true⟩ 8 4 2 ⟨1, 0⟩ 0
        (calculateBorderPositions ⟨0, 0, 0, 2⟩)).get_pixels.any fun p =>
      !(Region.contains ⟨0, 0, 0, 2⟩ ⟨p.1, p.2.1⟩)) = true := by
  decide

/-! ## C1: animation convergence -/

/-- The state after `n` successive invocations of `update_animation` (each
state-changing invocation also raises; the state thread is what the claim's
"progression ticks" observe). -/
def tickN : Nat → TextComponent → TextComponent
  | 0, c => c
  | n + 1, c => (TextComponent.update_animation (tickN n c)).1

/-- The binary64 animation progress accumulated by `k` ticks of an animation
of duration `D`: `k` float additions of `1.0 / D` starting from `0.0`,
exactly as `update_animation` performs them. -/
def progressAfter (D : Int) : Nat → F64
  | 0 => ⟨0, 0⟩
  | k + 1 => (progressAfter D k).add (F64.oneDiv D)

theorem tickN_not_animating {c : TextComponent} (h : c.is_animating = false) :
    ∀ n, tickN n c = c := by
  intro n
  induction n with
  | zero => rfl
  | succ k ih =>
    rw [tickN, ih, TextComponent.update_animation, if_pos h]

theorem tickN_running (s1 : TextComponent) (D : Int) (h1 : s1.is_animating = true)
    (hdur : s1.animation_duration = D) (hp : s1.animation_progress = ⟨0, 0⟩) :
    ∀ n, (∀ k : Nat, k ≤ n → 1 ≤ k → F64.leB ⟨1, 0⟩ (progressAfter D k) = false) →
      tickN n s1 = { s1 with animation_progress := progressAfter D n } := by
  obtain ⟨base, maxLen, text, font, color, al, val, aty, apr, adu, ot, nt, ia, lrt,
    lrc, lrp, nc⟩ := s1
  simp only at h1 hdur hp
  subst h1
  subst hdur
  subst hp
  intro n
  induction n with
  | zero =>
    intro _
    rfl
  | succ k ih =>
    intro hk
    rw [tickN, ih (fun j hj1 hj2 => hk j (by omega) hj2)]
    rw [TextComponent.update_animation]
    rw [if_neg (by simp)]
    simp only
    rw [if_neg (by
      have h := hk (k + 1) (by omega) (by omega)
      rw [progressAfter] at h
      rw [h]
      simp)]
    rfl

theorem toNat_succ_of_pos {D : Int} (hD : 1 ≤ D) : ∃ m : Nat, D.toNat = m + 1 :=
  ⟨D.toNat - 1, by omega⟩

theorem run_anim (c : TextComponent) (trimmed : String) (a : AnimationType) (D : Int)
    (hD : 1 ≤ D)
    (hlt : ∀ k : Nat, k < D.toNat → 1 ≤ k →
      F64.leB ⟨1, 0⟩ (progressAfter D k) = false)
    (hge : F64.leB ⟨1, 0⟩ (progressAfter D D.toNat) = true) :
    (tickN D.toNat { c with
        old_text := c.text, new_text := trimmed, animation_type := a,
        animation_progress := ⟨0, 0⟩, animation_duration := D,
        is_animating := true, needs_clear := true,
        last_rendered_progress := ⟨-1, 0⟩ }).text = trimmed ∧
    (tickN D.toNat { c with
        old_text := c.text, new_text := trimmed, animation_type := a,
        animation_progress := ⟨0, 0⟩, animation_duration := D,
        is_animating := true, needs_clear := true,
        last_rendered_progress := ⟨-1, 0⟩ }).is_animating = false := by
  obtain ⟨m, hm⟩ := toNat_succ_of_pos hD
  rw [hm, tickN]
  rw [tickN_running _ D rfl rfl rfl m (fun j hj1 hj2 => hlt j (by omega) hj2)]
  rw [TextComponent.update_animation]
  rw [if_neg (by simp)]
  simp only
  have hsucc : (progressAfter D m).add (F64.oneDiv D) = progressAfter D (m + 1) := rfl
  rw [hsucc, if_pos (by rw [← hm]; exact hge)]
  exact ⟨rfl, rfl⟩

/-- C1 (amended): after `set_text(text, animation=X, duration=D)` with
`X ≠ None` and `D ≥ 1`, exactly `D` progression ticks commit the (trimmed)
text and end the animation — *provided* the binary64 accumulation of `D`
increments of `1.0 / D` first reaches `1.0` at tick `D`. This holds for some
durations (e.g. 1–5, 8, 16 and 20) but not for others: for `D = 6`, `7`,
`10` — and for the default `D = 30` — the accumulated progress after `D`
ticks is just below `1.0` and one extra tick is needed (the counterexample
exhibits `D = 10`). The committed text is `text` after max-length trimming,
which is `text` itself whenever no `max_text_length` is configured. -/
theorem C1_animation_convergence :
    ∀ (c : TextComponent) (t : String) (a : AnimationType) (D : Int),
      a ≠ AnimationType.NONE → 1 ≤ D →
      (∀ k : Nat, k < D.toNat → 1 ≤ k →
        F64.leB ⟨1, 0⟩ (progressAfter D k) = false) →
      F64.leB ⟨1, 0⟩ (progressAfter D D.toNat) = true →
      (tickN D.toNat (c.set_text t (some a) D).1).text = trimText c.max_text_length t ∧
      (tickN D.toNat (c.set_text t (some a) D).1).is_animating = false := by
  intro c t a D ha hD hlt hge
  simp only [TextComponent.set_text, trimIf_eq]
  by_cases hguard : c.text = trimText c.max_text_length t ∧ c.is_animating = false
  · rw [if_pos hguard]
    rw [tickN_not_animating hguard.2]
    exact ⟨hguard.1, hguard.2⟩
  · rw [if_neg hguard]
    cases a with
    | NONE => exact absurd rfl ha
    | PUSH => exact run_anim c (trimText c.max_text_length t) _ D hD hlt hge
    | FADE => exact run_anim c (trimText c.max_text_length t) _ D hD hlt hge
    | TYPEWRITER => exact run_anim c (trimText c.max_text_length t) _ D hD hlt hge
    | SLIDE_LEFT => exact run_anim c (trimText c.max_text_length t) _ D hD hlt hge
    | SLIDE_RIGHT => exact run_anim c (trimText c.max_text_length t) _ D hD hlt hge
    | SLIDE_UP => exact run_anim c (trimText c.max_text_length t) _ D hD hlt hge
    | SLIDE_DOWN => exact run_anim c (trimText c.max_text_length t) _ D hD hlt hge

/-- C1 witness: duration 20 (whose binary64 accumulation first reaches `1.0`
exactly at tick 20) on a concrete component: 20 ticks commit the text. -/
theorem C1_animation_convergence_witness :
    (AnimationType.PUSH ≠ AnimationType.NONE ∧ (1 : Int) ≤ 20 ∧
      (∀ k : Nat, k < (20 : Int).toNat → 1 ≤ k →
        F64.leB ⟨1, 0⟩ (progressAfter 20 k) = false) ∧
      F64.leB ⟨1, 0⟩ (progressAfter 20 (20 : Int).toNat) = true) ∧
    ((tickN (20 : Int).toNat
        (TextComponent.set_text
          ⟨⟨⟨0, 0, 40, 8⟩, none, true, true⟩, none, "Aldgate", none, ⟨255, 255, 255⟩,
            "left", "top", .NONE, ⟨0, 0⟩, 30, "", "", false, "", none, ⟨-1, 0⟩, true⟩
          "Stanmore" (some .PUSH) 20).1).text = trimText none "Stanmore" ∧
      (tickN (20 : Int).toNat
        (TextComponent.set_text
          ⟨⟨⟨0, 0, 40, 8⟩, none, true, true⟩, none, "Aldgate", none, ⟨255, 255, 255⟩,
            "left", "top", .NONE, ⟨0, 0⟩, 30, "", "", false, "", none, ⟨-1, 0⟩, true⟩
          "Stanmore" (some .PUSH) 20).1).is_animating = false) :=
  ⟨⟨by decide, by decide, by decide, by decide⟩,
    C1_animation_convergence
      ⟨⟨⟨0, 0, 40, 8⟩, none, true, true⟩, none, "Aldgate", none, ⟨255, 255, 255⟩,
        "left", "top", .NONE, ⟨0, 0⟩, 30, "", "", false, "", none, ⟨-1, 0⟩, true⟩
      "Stanmore" .PUSH 20 (by decide) (by decide) (by decide) (by decide)⟩

/-- C1 counterexample to the claim as stated, in two parts. (1) Duration 10:
after exactly 10 ticks the binary64 progress is `0.9999999999999999 < 1.0`,
so the text is still the old one and the component is still animating (an
11th tick is needed). (2) Trimming: with `max_text_length = 3`, animating to
`"abcdef"` with duration 1 commits `"abc..."`, not the argument `"abcdef"`. -/
theorem C1_animation_convergence_counterexample :
    ((tickN 10
        (TextComponent.set_text
          ⟨⟨⟨0, 0, 40, 8⟩, none, true, true⟩, none, "Aldgate", none, ⟨255, 255, 255⟩,
            "left", "top", .NONE, ⟨0, 0⟩, 30, "", "", false, "", none, ⟨-1, 0⟩, true⟩
          "Stanmore" (some .PUSH) 10).1).text ≠ "Stanmore" ∧
      (tickN 10
        (TextComponent.set_text
          ⟨⟨⟨0, 0, 40, 8⟩, none, true, true⟩, none, "Aldgate", none, ⟨255, 255, 255⟩,
            "left", "top", .NONE, ⟨0, 0⟩, 30, "", "", false, "", none, ⟨-1, 0⟩, true⟩
          "Stanmore" (some .PUSH) 10).1).is_animating = true) ∧
    ((tickN 1
        (TextComponent.set_text
          ⟨⟨⟨0, 0, 40, 8⟩, none, true, true⟩, some 3, "xyz", none, ⟨255, 255, 255⟩,
            "left", "top", .NONE, ⟨0, 0⟩, 30, "", "", false, "", none, ⟨-1, 0⟩, true⟩
          "abcdef" (some .FADE) 1).1).text ≠ "abcdef" ∧
      (tickN 1
        (TextComponent.set_text
          ⟨⟨⟨0, 0, 40, 8⟩, none, true, true⟩, some 3, "xyz", none, ⟨255, 255, 255⟩,
            "left", "top", .NONE, ⟨0, 0⟩, 30, "", "", false, "", none, ⟨-1, 0⟩, true⟩
          "abcdef" (some .FADE) 1).1).is_animating = false) := by
  refine ⟨⟨by decide, by decide⟩, ⟨by decide, by decide⟩⟩

/-! ## C2: setters mutate and then raise `AttributeError` -/

/-- C2 (amended): when the argument *after max-length trimming* differs from
the committed text, or the component is animating, `set_text` raises
`AttributeError` (no `_sync` method exists anywhere in the repository, and
both mutating branches end by calling `self._sync()`), and the raise happens
only after the state has been mutated: the static branch has already stored
the new text and the needs-clear flag, the animated branch has already stored
the animation state. Likewise `CrowdingComponent.set_value` with a value
whose clamp differs from the current value stores the clamped value, sets
`_needs_redraw`, marks the component dirty, and then raises. (When the
trimmed argument equals the committed text of an idle component, the call
returns silently — see the counterexample.) -/
theorem C2_setters_mutate_then_raise :
    (∀ (c : TextComponent) (t : String) (anim : Option AnimationType) (dur : Int),
      (trimText c.max_text_length t ≠ c.text ∨ c.is_animating = true) →
      (c.set_text t anim dur).2 = true ∧
      (c.set_text t anim dur).1.needs_clear = true ∧
      ((anim = none ∨ anim = some AnimationType.NONE) →
        (c.set_text t anim dur).1.text = trimText c.max_text_length t ∧
        (c.set_text t anim dur).1.is_animating = false) ∧
      (∀ a : AnimationType, anim = some a → a ≠ AnimationType.NONE →
        (c.set_text t anim dur).1.new_text = trimText c.max_text_length t ∧
        (c.set_text t anim dur).1.old_text = c.text ∧
        (c.set_text t anim dur).1.is_animating = true ∧
        (c.set_text t anim dur).1.animation_type = a ∧
        (c.set_text t anim dur).1.animation_progress = ⟨0, 0⟩ ∧
        (c.set_text t anim dur).1.animation_duration = dur)) ∧
    (∀ (c : CrowdingComponent) (v : Int), clamp05 v ≠ c.value →
      c.set_value v =
        ({ c with
            value := clamp05 v,
            needs_redraw := true,
            base := c.base.mark_dirty }, true)) := by
  constructor
  · intro c t anim dur h
    have hguard : ¬(c.text = trimText c.max_text_length t ∧ c.is_animating = false) := by
      rcases h with h | h
      · exact fun hc => h hc.1.symm
      · exact fun hc => by rw [h] at hc; exact Bool.noConfusion hc.2
    simp only [TextComponent.set_text, trimIf_eq]
    rw [if_neg hguard]
    rcases anim with _ | a
    · exact ⟨rfl, rfl, fun _ => ⟨rfl, rfl⟩, fun a ha => absurd ha (by simp)⟩
    · cases a with
      | NONE =>
        refine ⟨rfl, rfl, fun _ => ⟨rfl, rfl⟩, fun a' ha' hne => ?_⟩
        injection ha' with h'
        exact absurd h'.symm hne
      | PUSH =>
        refine ⟨rfl, rfl, fun hcon => ?_, fun a' ha' _ => ?_⟩
        · rcases hcon with h' | h' <;> simp at h'
        · injection ha' with h'
          subst h'
          exact ⟨rfl, rfl, rfl, rfl, rfl, rfl⟩
      | FADE =>
        refine ⟨rfl, rfl, fun hcon => ?_, fun a' ha' _ => ?_⟩
        · rcases hcon with h' | h' <;> simp at h'
        · injection ha' with h'
          subst h'
          exact ⟨rfl, rfl, rfl, rfl, rfl, rfl⟩
      | TYPEWRITER =>
        refine ⟨rfl, rfl, fun hcon => ?_, fun a' ha' _ => ?_⟩
        · rcases hcon with h' | h' <;> simp at h'
        · injection ha' with h'
          subst h'
          exact ⟨rfl, rfl, rfl, rfl, rfl, rfl⟩
      | SLIDE_LEFT =>
        refine ⟨rfl, rfl, fun hcon => ?_, fun a' ha' _ => ?_⟩
        · rcases hcon with h' | h' <;> simp at h'
        · injection ha' with h'
          subst h'
          exact ⟨rfl, rfl, rfl, rfl, rfl, rfl⟩
      | SLIDE_RIGHT =>
        refine ⟨rfl, rfl, fun hcon => ?_, fun a' ha' _ => ?_⟩
        · rcases hcon with h' | h' <;> simp at h'
        · injection ha' with h'
          subst h'
          exact ⟨rfl, rfl, rfl, rfl, rfl, rfl⟩
      | SLIDE_UP =>
        refine ⟨rfl, rfl, fun hcon => ?_, fun a' ha' _ => ?_⟩
        · rcases hcon with h' | h' <;> simp at h'
        · injection ha' with h'
          subst h'
          exact ⟨rfl, rfl, rfl, rfl, rfl, rfl⟩
      | SLIDE_DOWN =>
        refine ⟨rfl, rfl, fun hcon => ?_, fun a' ha' _ => ?_⟩
        · rcases hcon with h' | h' <;> simp at h'
        · injection ha' with h'
          subst h'
          exact ⟨rfl, rfl, rfl, rfl, rfl, rfl⟩
  · intro c v h
    simp only [CrowdingComponent.set_value]
    rw [if_pos (fun heq => h heq.symm)]

/-- C2 witness: a concrete static text change (raises after storing the new
text) and a concrete crowding change (raises after storing the clamp). -/
theorem C2_setters_mutate_then_raise_witness :
    ((trimText none "b" ≠ "a" ∨ false = true) ∧
      (TextComponent.set_text
        ⟨⟨⟨0, 0, 10, 8⟩, none, true, true⟩, none, "a", none, ⟨255, 255, 255⟩,
          "left", "top", .NONE, ⟨0, 0⟩, 30, "", "", false, "", none, ⟨-1, 0⟩, false⟩
        "b" none 30).2 = true ∧
      (TextComponent.set_text
        ⟨⟨⟨0, 0, 10, 8⟩, none, true, true⟩, none, "a", none, ⟨255, 255, 255⟩,
          "left", "top", .NONE, ⟨0, 0⟩, 30, "", "", false, "", none, ⟨-1, 0⟩, false⟩
        "b" none 30).1.text = trimText none "b") ∧
    (clamp05 9 ≠ 0 ∧
      CrowdingComponent.set_value
        ⟨⟨⟨0, 0, 30, 8⟩, none, true, false⟩, none, 0, DEFAULT_LEVEL_COLORS,
          ⟨50, 50, 50⟩, 1, "center", false⟩ 9 =
        ({ CrowdingComponent.mk ⟨⟨0, 0, 30, 8⟩, none, true, false⟩ none 0
            DEFAULT_LEVEL_COLORS ⟨50, 50, 50⟩ 1 "center" false with
            value := clamp05 9,
            needs_redraw := true,
            base := ComponentBase.mark_dirty ⟨⟨0, 0, 30, 8⟩, none, true, false⟩ },
          true)) :=
  ⟨⟨by decide,
    ((C2_setters_mutate_then_raise.1)
      ⟨⟨⟨0, 0, 10, 8⟩, none, true, true⟩, none, "a", none, ⟨255, 255, 255⟩,
        "left", "top", .NONE, ⟨0, 0⟩, 30, "", "", false, "", none, ⟨-1, 0⟩, false⟩
      "b" none 30 (Or.inl (by decide))).1,
    (((C2_setters_mutate_then_raise.1)
      ⟨⟨⟨0, 0, 10, 8⟩, none, true, true⟩, none, "a", none, ⟨255, 255, 255⟩,
        "left", "top", .NONE, ⟨0, 0⟩, 30, "", "", false, "", none, ⟨-1, 0⟩, false⟩
      "b" none 30 (Or.inl (by decide))).2.2.1 (Or.inl rfl)).1⟩,
    ⟨by decide,
    (C2_setters_mutate_then_raise.2)
      ⟨⟨⟨0, 0, 30, 8⟩, none, true, false⟩, none, 0, DEFAULT_LEVEL_COLORS,
        ⟨50, 50, 50⟩, 1, "center", false⟩ 9 (by decide)⟩⟩

/-- C2 counterexample to the claim as stated: on a component with
`max_text_length = 3` and committed text `"abc..."`, calling
`set_text("abcxyz")` does *not* raise — the argument differs from the
committed text, but its trimmed form equals it, so the no-op guard fires and
the state is returned unchanged. -/
theorem C2_setters_mutate_then_raise_counterexample :
    (TextComponent.set_text
      ⟨⟨⟨0, 0, 40, 8⟩, none, true, true⟩, some 3, "abc...", none, ⟨255, 255, 255⟩,
        "left", "top", .NONE, ⟨0, 0⟩, 30, "", "", false, "", none, ⟨-1, 0⟩, false⟩
      "abcxyz" none 30).2 = false ∧
    "abcxyz" ≠ "abc..." ∧
    (TextComponent.set_text
      ⟨⟨⟨0, 0, 40, 8⟩, none, true, true⟩, some 3, "abc...", none, ⟨255, 255, 255⟩,
        "left", "top", .NONE, ⟨0, 0⟩, 30, "", "", false, "", none, ⟨-1, 0⟩, false⟩
      "abcxyz" none 30).1.text = "abc..." := by
  refine ⟨by decide, by decide, by decide⟩

end Wembuzz
